import Mathlib

/-!
Verification of the chart-pattern / market-structure detection engine of the
trading-bot repository, as a shallow embedding in Lean 4.

The embedding mirrors:
  * `user_data/strategies/indicators/chart_patterns.py` (class `ChartPatterns`):
    swing-point extraction (`find_swing_points` via `scipy.signal.argrelextrema`
    with `greater_equal` / `less_equal` comparators and clip-mode boundary
    handling), the pattern matchers (`detect_double_top`,
    `detect_double_bottom`, `detect_head_and_shoulders`, `detect_wedge`,
    `detect_triangle`, `detect_flag`) and the aggregator
    (`summarize_patterns`).
  * `user_data/strategies/indicators/smc_indicators.py` (class `SMCIndicators`):
    `_calc_order_blocks`, `_calc_wyckoff_patterns`, `_calc_choch`,
    `_calc_liquidity_pools`.

Prices are modelled as rationals; pandas windows that are undefined (NaN)
because the rolling window is not yet full are modelled by the explicit
index guards that pandas' NaN-comparison semantics (NaN cmp x = False)
induce on the derived boolean columns.
-/

/-- One OHLCV price bar.  Field `op` is the `open` column of the source
(`open` is a Lean keyword). -/
structure Bar where
  op : ℚ
  high : ℚ
  low : ℚ
  close : ℚ
  volume : ℚ
deriving DecidableEq

/-- Default bar used for out-of-range access (never hit on guarded indices). -/
def dBar : Bar := ⟨0, 0, 0, 0, 0⟩

/-- Row access into the bar sequence, `dataframe.iloc[i]`. -/
def nth (bars : List Bar) (i : ℕ) : Bar := bars.getD i dBar

/-!
Swing extraction, `ChartPatterns.find_swing_points` (chart_patterns.py:44-82).

`argrelextrema(highs, np.greater_equal, order=order)` marks index `idx` as a
local maximum when `highs[idx] >= highs[take(idx ± s)]` for every shift
`1 ≤ s ≤ order`, where `np.take(..., mode='clip')` clips the compared index
into `[0, n-1]`.  Natural subtraction models the lower clip, `min` the upper.
The extremum found at `idx` is then written `order` bars later: the column
`swing_high` at bar `j` carries `highs[j - order]` when `j - order` is a
marked maximum and `j < n` (the source guard `idx + order < len(dataframe)`).
-/

/-- Index `idx` is a plateau-tolerant local maximum of the `high` column,
after `argrelextrema(..., np.greater_equal, order)` with clip-mode takes. -/
def isSwingHighAt (bars : List Bar) (order idx : ℕ) : Bool :=
  (List.range order).all fun s =>
    decide ((nth bars idx).high ≥ (nth bars (min (idx + (s + 1)) (bars.length - 1))).high)
      && decide ((nth bars idx).high ≥ (nth bars (idx - (s + 1))).high)

/-- Index `idx` is a plateau-tolerant local minimum of the `low` column
(`np.less_equal` comparator). -/
def isSwingLowAt (bars : List Bar) (order idx : ℕ) : Bool :=
  (List.range order).all fun s =>
    decide ((nth bars idx).low ≤ (nth bars (min (idx + (s + 1)) (bars.length - 1))).low)
      && decide ((nth bars idx).low ≤ (nth bars (idx - (s + 1))).low)

/-- Column `swing_high` of `find_swing_points`: the extremum price of bar
`j - order`, reported (confirmed) at bar `j`; zero elsewhere. -/
def swing_high_col (bars : List Bar) (order j : ℕ) : ℚ :=
  if order ≤ j ∧ j < bars.length ∧ isSwingHighAt bars order (j - order) then
    (nth bars (j - order)).high
  else 0

/-- Column `swing_low` of `find_swing_points`. -/
def swing_low_col (bars : List Bar) (order j : ℕ) : ℚ :=
  if order ≤ j ∧ j < bars.length ∧ isSwingLowAt bars order (j - order) then
    (nth bars (j - order)).low
  else 0

/-!
`ChartPatterns.get_recent_swings` (chart_patterns.py:85-103): iterate over the
last `min(n, 100)` rows (`dataframe.tail(100)`), collecting `(i, price)` pairs
where `i` is the position inside the tail and the swing column is positive.
-/

/-- Number of rows of `dataframe.tail(100)`. -/
def tailLen (bars : List Bar) : ℕ := min bars.length 100

/-- Absolute index of the first row of `dataframe.tail(100)`. -/
def tailStart (bars : List Bar) : ℕ := bars.length - tailLen bars

/-- Recent swing highs as `(tail-relative index, price)` pairs. -/
def recentSwingHighs (bars : List Bar) : List (ℕ × ℚ) :=
  (List.range (tailLen bars)).filterMap fun t =>
    let v := swing_high_col bars 5 (tailStart bars + t)
    if v > 0 then some (t, v) else none

/-- Recent swing lows as `(tail-relative index, price)` pairs. -/
def recentSwingLows (bars : List Bar) : List (ℕ × ℚ) :=
  (List.range (tailLen bars)).filterMap fun t =>
    let v := swing_low_col bars 5 (tailStart bars + t)
    if v > 0 then some (t, v) else none

/-!
Double top, `ChartPatterns.detect_double_top` (chart_patterns.py:110-173);
double bottom, `detect_double_bottom` (chart_patterns.py:176-224).
The python loop scans adjacent pairs of the recent swing list and writes the
confidence at `actual_idx = len(dataframe) - 100 + peak2_idx` (python integers,
so modelled in ℤ), guarded by `0 <= actual_idx < len(dataframe)`.
-/

/-- Adjacent pairs `(xs[i-1], xs[i])` scanned by `for i in range(1, len(xs))`. -/
def consecPairs {α : Type} (l : List α) : List (α × α) := l.zip l.tail

/-- Minimum of the prices of a nonempty candidate list: python
`min(lst, key=lambda x: x[1])[1]`. -/
def minPrice (x : ℕ × ℚ) (xs : List (ℕ × ℚ)) : ℚ :=
  (xs.map Prod.snd).foldl min x.2

/-- Maximum counterpart, python `max(lst, key=lambda x: x[1])[1]`. -/
def maxPrice (x : ℕ × ℚ) (xs : List (ℕ × ℚ)) : ℚ :=
  (xs.map Prod.snd).foldl max x.2

/-- Pair acceptance test of `detect_double_top` (chart_patterns.py:146-148):
the loop `continue`s when `abs(peak1 - peak2)/peak1 > tolerance`, so a pair
survives exactly when the relative difference is at most `tolerance`. -/
def doubleTopPairAccept (p1 p2 tol : ℚ) : Bool :=
  decide (|p1 - p2| / p1 ≤ tol)

/-- One iteration of the `detect_double_top` pair loop: the optional
`(absolute index, confidence)` write it produces. -/
def doubleTopPairWrite (bars : List Bar) (tol : ℚ) (p q : ℕ × ℚ) :
    Option (ℕ × ℚ) :=
  if doubleTopPairAccept p.2 q.2 tol then
    match (recentSwingLows bars).filter (fun x => p.1 < x.1 ∧ x.1 < q.1) with
    | [] => none
    | m :: ms =>
      let neck := minPrice m ms
      let depth := (p.2 - neck) / p.2
      let conf := min 1 (depth * 10)
      if q.1 < bars.length then
        let actual : ℤ := (bars.length : ℤ) - 100 + (q.1 : ℤ)
        if 0 ≤ actual ∧ actual < (bars.length : ℤ) then some (actual.toNat, conf)
        else none
      else none
  else none

/-- All writes performed by the `detect_double_top` pair loop, in order. -/
def doubleTopWrites (bars : List Bar) (tol : ℚ) : List (ℕ × ℚ) :=
  (consecPairs (recentSwingHighs bars)).filterMap fun pq =>
    doubleTopPairWrite bars tol pq.1 pq.2

/-- Sequential column writes: start from `f` and apply each `(index, value)`
assignment in order (later writes win, as with `dataframe.iloc[...] = v`). -/
def applyWrites (f : ℕ → ℚ) (ws : List (ℕ × ℚ)) : ℕ → ℚ :=
  ws.foldl (fun g w => fun j => if j = w.1 then w.2 else g j) f

/-- Column `%-double_top` produced by `detect_double_top`: zero when fewer
than 50 bars or when the swing lists are too short, otherwise the result of
the pair-loop writes over the zero-initialised column. -/
def detect_double_top_col (bars : List Bar) (tol : ℚ) (j : ℕ) : ℚ :=
  if bars.length < 50 then 0
  else if (recentSwingHighs bars).length < 2 ∨ (recentSwingLows bars).length < 1 then 0
  else applyWrites (fun _ => 0) (doubleTopWrites bars tol) j

/-- One iteration of the `detect_double_bottom` pair loop. -/
def doubleBottomPairWrite (bars : List Bar) (tol : ℚ) (p q : ℕ × ℚ) :
    Option (ℕ × ℚ) :=
  if decide (|p.2 - q.2| / p.2 ≤ tol) then
    match (recentSwingHighs bars).filter (fun x => p.1 < x.1 ∧ x.1 < q.1) with
    | [] => none
    | m :: ms =>
      let neck := maxPrice m ms
      let depth := (neck - p.2) / p.2
      let conf := min 1 (depth * 10)
      if q.1 < bars.length then
        let actual : ℤ := (bars.length : ℤ) - 100 + (q.1 : ℤ)
        if 0 ≤ actual ∧ actual < (bars.length : ℤ) then some (actual.toNat, conf)
        else none
      else none
  else none

/-- All writes performed by the `detect_double_bottom` pair loop. -/
def doubleBottomWrites (bars : List Bar) (tol : ℚ) : List (ℕ × ℚ) :=
  (consecPairs (recentSwingLows bars)).filterMap fun pq =>
    doubleBottomPairWrite bars tol pq.1 pq.2

/-- Column `%-double_bottom` of `detect_double_bottom`. -/
def detect_double_bottom_col (bars : List Bar) (tol : ℚ) (j : ℕ) : ℚ :=
  if bars.length < 50 then 0
  else if (recentSwingLows bars).length < 2 ∨ (recentSwingHighs bars).length < 1 then 0
  else applyWrites (fun _ => 0) (doubleBottomWrites bars tol) j

/-!
Head and shoulders, `ChartPatterns.detect_head_and_shoulders`
(chart_patterns.py:231-323).  The loop scans consecutive triples of the
recent swing list; the inverse variant runs only under its own extra guard
on the list lengths.
-/

/-- Consecutive triples `(xs[i-2], xs[i-1], xs[i])` scanned by
`for i in range(2, len(xs))`. -/
def consecTriples {α : Type} (l : List α) : List (α × α × α) :=
  l.zip (l.tail.zip l.tail.tail)

/-- One iteration of the head-and-shoulders triple loop (bearish variant):
left shoulder `a`, head `b`, right shoulder `c`. -/
def hsTripleWrite (bars : List Bar) (tol : ℚ) (a b c : ℕ × ℚ) :
    Option (ℕ × ℚ) :=
  if decide (b.2 > a.2) && decide (b.2 > c.2) then
    if decide (|a.2 - c.2| / a.2 ≤ tol) then
      match (recentSwingLows bars).filter (fun x => a.1 < x.1 ∧ x.1 < b.1),
            (recentSwingLows bars).filter (fun x => b.1 < x.1 ∧ x.1 < c.1) with
      | lm :: lms, rm :: rms =>
        let neckAvg := (minPrice lm lms + minPrice rm rms) / 2
        let quality := (b.2 - neckAvg) / b.2
        let conf := min 1 (quality * 10)
        if c.1 < bars.length then
          let actual : ℤ := (bars.length : ℤ) - 100 + (c.1 : ℤ)
          if 0 ≤ actual ∧ actual < (bars.length : ℤ) then some (actual.toNat, conf)
          else none
        else none
      | _, _ => none
    else none
  else none

/-- One iteration of the inverse head-and-shoulders triple loop. -/
def hsInvTripleWrite (bars : List Bar) (tol : ℚ) (a b c : ℕ × ℚ) :
    Option (ℕ × ℚ) :=
  if decide (b.2 < a.2) && decide (b.2 < c.2) then
    if decide (|a.2 - c.2| / a.2 ≤ tol) then
      match (recentSwingHighs bars).filter (fun x => a.1 < x.1 ∧ x.1 < b.1),
            (recentSwingHighs bars).filter (fun x => b.1 < x.1 ∧ x.1 < c.1) with
      | lm :: lms, rm :: rms =>
        let neckAvg := (maxPrice lm lms + maxPrice rm rms) / 2
        let quality := (neckAvg - b.2) / neckAvg
        let conf := min 1 (quality * 10)
        if c.1 < bars.length then
          let actual : ℤ := (bars.length : ℤ) - 100 + (c.1 : ℤ)
          if 0 ≤ actual ∧ actual < (bars.length : ℤ) then some (actual.toNat, conf)
          else none
        else none
      | _, _ => none
    else none
  else none

/-- Writes of the bearish head-and-shoulders loop. -/
def hsWrites (bars : List Bar) (tol : ℚ) : List (ℕ × ℚ) :=
  (consecTriples (recentSwingHighs bars)).filterMap fun t =>
    hsTripleWrite bars tol t.1 t.2.1 t.2.2

/-- Writes of the inverse head-and-shoulders loop. -/
def hsInvWrites (bars : List Bar) (tol : ℚ) : List (ℕ × ℚ) :=
  (consecTriples (recentSwingLows bars)).filterMap fun t =>
    hsInvTripleWrite bars tol t.1 t.2.1 t.2.2

/-- Column `%-head_shoulders`: guarded by `n >= 100` and the swing-list
length check of chart_patterns.py:246-252. -/
def detect_head_shoulders_col (bars : List Bar) (tol : ℚ) (j : ℕ) : ℚ :=
  if bars.length < 100 then 0
  else if (recentSwingHighs bars).length < 3 ∨ (recentSwingLows bars).length < 2 then 0
  else applyWrites (fun _ => 0) (hsWrites bars tol) j

/-- Column `%-head_shoulders_inv`: the inverse loop additionally requires
`len(swing_lows) >= 3 and len(swing_highs) >= 2` (chart_patterns.py:293). -/
def detect_head_shoulders_inv_col (bars : List Bar) (tol : ℚ) (j : ℕ) : ℚ :=
  if bars.length < 100 then 0
  else if (recentSwingHighs bars).length < 3 ∨ (recentSwingLows bars).length < 2 then 0
  else if 3 ≤ (recentSwingLows bars).length ∧ 2 ≤ (recentSwingHighs bars).length then
    applyWrites (fun _ => 0) (hsInvWrites bars tol) j
  else 0

/-!
Regression-based matchers.  `np.polyfit(x, y, 1)[0]` with `x = 0..L-1` is the
least-squares slope `(L·Σxy − Σx·Σy) / (L·Σx² − (Σx)²)`.
-/

/-- Least-squares slope of `ys` against `x = 0, 1, ..., len-1`,
`np.polyfit(x, ys, 1)[0]`. -/
def lsSlope (ys : List ℚ) : ℚ :=
  let L := ys.length
  let sx : ℚ := ∑ i in Finset.range L, (i : ℚ)
  let sy : ℚ := ∑ i in Finset.range L, ys.getD i 0
  let sxy : ℚ := ∑ i in Finset.range L, (i : ℚ) * ys.getD i 0
  let sxx : ℚ := ∑ i in Finset.range L, (i : ℚ) * (i : ℚ)
  ((L : ℚ) * sxy - sx * sy) / ((L : ℚ) * sxx - sx * sx)

/-- The values `f` of the rows `iloc[start : start+len]`. -/
def windowList (bars : List Bar) (f : Bar → ℚ) (start len : ℕ) : List ℚ :=
  (List.range len).map fun s => f (nth bars (start + s))

/-- Mean of a window, `window[col].mean()` (length as divisor). -/
def windowMean (bars : List Bar) (f : Bar → ℚ) (start len : ℕ) : ℚ :=
  (windowList bars f start len).sum / (len : ℚ)

/-- Maximum of a nonempty list, `series.max()`. -/
def listMax (l : List ℚ) : ℚ :=
  match l with
  | [] => 0
  | x :: xs => xs.foldl max x

/-- Minimum of a nonempty list, `series.min()`. -/
def listMin (l : List ℚ) : ℚ :=
  match l with
  | [] => 0
  | x :: xs => xs.foldl min x

/-- Normalised regression slope of column `f` over the window
`iloc[i-lookback : i]`, chart_patterns.py:349-360. -/
def slopePct (bars : List Bar) (f : Bar → ℚ) (lookback i : ℕ) : ℚ :=
  lsSlope (windowList bars f (i - lookback) lookback)
    / windowMean bars Bar.close (i - lookback) lookback

/-- Column `%-rising_wedge` of `ChartPatterns.detect_wedge`
(chart_patterns.py:330-374). -/
def detect_rising_wedge_col (bars : List Bar) (lookback j : ℕ) : ℚ :=
  if bars.length < lookback + 10 then 0
  else if lookback ≤ j ∧ j < bars.length then
    let hp := slopePct bars Bar.high lookback j
    let lp := slopePct bars Bar.low lookback j
    if hp > 0 ∧ lp > 0 ∧ lp > hp then
      min 1 |if hp ≠ 0 then (lp - hp) / hp else 0|
    else 0
  else 0

/-- Column `%-falling_wedge` of `detect_wedge`. -/
def detect_falling_wedge_col (bars : List Bar) (lookback j : ℕ) : ℚ :=
  if bars.length < lookback + 10 then 0
  else if lookback ≤ j ∧ j < bars.length then
    let hp := slopePct bars Bar.high lookback j
    let lp := slopePct bars Bar.low lookback j
    if hp < 0 ∧ lp < 0 ∧ hp < lp then
      min 1 |if lp ≠ 0 then (lp - hp) / lp else 0|
    else 0
  else 0

/-- Column `%-ascending_triangle` of `ChartPatterns.detect_triangle`
(chart_patterns.py:381-429), thresholds `flat = 0.0001`, `slope = 0.0005`. -/
def detect_ascending_triangle_col (bars : List Bar) (lookback j : ℕ) : ℚ :=
  if bars.length < lookback + 10 then 0
  else if lookback ≤ j ∧ j < bars.length then
    let hp := slopePct bars Bar.high lookback j
    let lp := slopePct bars Bar.low lookback j
    if |hp| < 1 / 10000 ∧ lp > 5 / 10000 then min 1 (lp * 1000) else 0
  else 0

/-- Column `%-descending_triangle` of `detect_triangle`. -/
def detect_descending_triangle_col (bars : List Bar) (lookback j : ℕ) : ℚ :=
  if bars.length < lookback + 10 then 0
  else if lookback ≤ j ∧ j < bars.length then
    let hp := slopePct bars Bar.high lookback j
    let lp := slopePct bars Bar.low lookback j
    if hp < -(5 / 10000) ∧ |lp| < 1 / 10000 then min 1 (|hp| * 1000) else 0
  else 0

/-- Column `%-symmetrical_triangle` of `detect_triangle`: written only when
the convergence ratio exceeds `0.5`. -/
def detect_symmetrical_triangle_col (bars : List Bar) (lookback j : ℕ) : ℚ :=
  if bars.length < lookback + 10 then 0
  else if lookback ≤ j ∧ j < bars.length then
    let hp := slopePct bars Bar.high lookback j
    let lp := slopePct bars Bar.low lookback j
    if hp < 0 ∧ lp > 0 then
      let conv := min |hp| |lp| / max |hp| |lp|
      if conv > 1 / 2 then conv else 0
    else 0
  else 0

/-- Column `%-bull_flag` of `ChartPatterns.detect_flag`
(chart_patterns.py:436-483): pole rows `iloc[i-pole-flagL : i-flagL]`, flag
rows `iloc[i-flagL : i]`. -/
def detect_bull_flag_col (bars : List Bar) (pole flagL j : ℕ) : ℚ :=
  if bars.length < pole + flagL + 10 then 0
  else if pole + flagL ≤ j ∧ j < bars.length then
    let poleFirst := (nth bars (j - (pole + flagL))).close
    let poleLast := (nth bars (j - flagL - 1)).close
    let poleMove := (poleLast - poleFirst) / poleFirst
    let flagFirst := (nth bars (j - flagL)).close
    let flagLast := (nth bars (j - 1)).close
    let flagMove := (flagLast - flagFirst) / flagFirst
    let flagRange := (listMax (windowList bars Bar.high (j - flagL) flagL)
        - listMin (windowList bars Bar.low (j - flagL) flagL))
        / windowMean bars Bar.close (j - flagL) flagL
    if poleMove > 3 / 100 ∧ flagMove < 0 ∧ |flagMove| < poleMove * (1 / 2)
        ∧ flagRange < poleMove * (3 / 10) then
      min 1 (poleMove * 10)
    else 0
  else 0

/-- Column `%-bear_flag` of `detect_flag`. -/
def detect_bear_flag_col (bars : List Bar) (pole flagL j : ℕ) : ℚ :=
  if bars.length < pole + flagL + 10 then 0
  else if pole + flagL ≤ j ∧ j < bars.length then
    let poleFirst := (nth bars (j - (pole + flagL))).close
    let poleLast := (nth bars (j - flagL - 1)).close
    let poleMove := (poleLast - poleFirst) / poleFirst
    let flagFirst := (nth bars (j - flagL)).close
    let flagLast := (nth bars (j - 1)).close
    let flagMove := (flagLast - flagFirst) / flagFirst
    let flagRange := (listMax (windowList bars Bar.high (j - flagL) flagL)
        - listMin (windowList bars Bar.low (j - flagL) flagL))
        / windowMean bars Bar.close (j - flagL) flagL
    if poleMove < -(3 / 100) ∧ flagMove > 0 ∧ flagMove < |poleMove| * (1 / 2)
        ∧ flagRange < |poleMove| * (3 / 10) then
      min 1 (|poleMove| * 10)
    else 0
  else 0

/-!
Aggregator, `ChartPatterns.summarize_patterns` (chart_patterns.py:537-599).
The source iterates over a weight dict, accumulating
`score += col.clip(0, 1) * weight`, then divides by
`max_score = sum(bullish_patterns.values())`, takes the difference, the
row-wise max, and the threshold flag.  All operations are per-bar, so the
embedding works on the per-bar values of the eleven pattern columns.
-/

/-- Per-bar values of the pattern columns consumed by `summarize_patterns`. -/
structure PatternCols where
  doubleTop : ℚ
  doubleBottom : ℚ
  headShoulders : ℚ
  headShouldersInv : ℚ
  risingWedge : ℚ
  fallingWedge : ℚ
  ascendingTriangle : ℚ
  descendingTriangle : ℚ
  bullFlag : ℚ
  bearFlag : ℚ

/-- Pandas `Series.clip(0, 1)` on one value. -/
def clip01 (x : ℚ) : ℚ := min 1 (max 0 x)

/-- The bullish weight table of `summarize_patterns`, paired with the
column values it is applied to (insertion order of the python dict). -/
def bullishWeighted (p : PatternCols) : List (ℚ × ℚ) :=
  [(p.doubleBottom, 1), (p.headShouldersInv, 3/2), (p.fallingWedge, 4/5),
   (p.ascendingTriangle, 7/10), (p.bullFlag, 3/5)]

/-- The bearish weight table of `summarize_patterns`. -/
def bearishWeighted (p : PatternCols) : List (ℚ × ℚ) :=
  [(p.doubleTop, 1), (p.headShoulders, 3/2), (p.risingWedge, 4/5),
   (p.descendingTriangle, 7/10), (p.bearFlag, 3/5)]

/-- Accumulation loop `score += clip(col, 0, 1) * weight` starting from 0. -/
def weightedSum (l : List (ℚ × ℚ)) : ℚ :=
  l.foldl (fun acc cw => acc + clip01 cw.1 * cw.2) 0

/-- Divisor `max_score = sum(bullish_patterns.values())`. -/
def maxScore : ℚ := ([1, 3/2, 4/5, 7/10, 3/5] : List ℚ).sum

/-- Column `%-pattern_bull_score`. -/
def pattern_bull_score (p : PatternCols) : ℚ := weightedSum (bullishWeighted p) / maxScore

/-- Column `%-pattern_bear_score`. -/
def pattern_bear_score (p : PatternCols) : ℚ := weightedSum (bearishWeighted p) / maxScore

/-- Column `%-pattern_net_score`. -/
def pattern_net_score (p : PatternCols) : ℚ := pattern_bull_score p - pattern_bear_score p

/-- Column `%-pattern_strength`, the row-wise max of the two scores. -/
def pattern_strength (p : PatternCols) : ℚ := max (pattern_bull_score p) (pattern_bear_score p)

/-- Column `%-has_pattern`, `(strength > 0.1).astype(float)`. -/
def has_pattern (p : PatternCols) : ℚ := if pattern_strength p > 1/10 then 1 else 0

/-!
SMC structure detectors, `smc_indicators.py`.  Rolling windows are modelled
by explicit index windows; a pandas rolling statistic at row `i` with window
`w` covers rows `[i-w+1, i]` and is NaN (hence any comparison with it is
False) unless `i ≥ w-1`.
-/

/-- The float `1e-10` used by the source as a division/NaN guard. -/
def eps : ℚ := 1 / 10000000000

/-- Rolling maximum `series.rolling(w).max()` of column `f` at row `i`
(meaningful only when `i ≥ w-1`; guarded at every use site). -/
def rollMax (bars : List Bar) (f : Bar → ℚ) (w i : ℕ) : ℚ :=
  listMax (windowList bars f (i + 1 - w) w)

/-- Rolling minimum `series.rolling(w).min()` at row `i`. -/
def rollMin (bars : List Bar) (f : Bar → ℚ) (w i : ℕ) : ℚ :=
  listMin (windowList bars f (i + 1 - w) w)

/-- Rolling mean `series.rolling(w).mean()` at row `i`. -/
def rollMean (bars : List Bar) (f : Bar → ℚ) (w i : ℕ) : ℚ :=
  (windowList bars f (i + 1 - w) w).sum / (w : ℚ)

/-!
Order blocks, `SMCIndicators._calc_order_blocks` (smc_indicators.py:216-278).
`price_change_3 = (close - close.shift(3)) / (close.shift(3) + 1e-10)`;
a bullish order block fires at row `i` when the candle three bars earlier is
bearish (`close < open`) and `price_change_3 > displacement_pct`.  Rows
`i < 3` carry NaN in both shifted series, so the flag is 0 there.
-/

/-- Column `%-order_block_bull` at row `i`. -/
def order_block_bull (bars : List Bar) (dpct : ℚ) (i : ℕ) : ℚ :=
  if i < bars.length ∧ 3 ≤ i
      ∧ (nth bars (i - 3)).close < (nth bars (i - 3)).op
      ∧ ((nth bars i).close - (nth bars (i - 3)).close)
          / ((nth bars (i - 3)).close + eps) > dpct then 1 else 0

/-- Column `%-order_block_bear` at row `i`. -/
def order_block_bear (bars : List Bar) (dpct : ℚ) (i : ℕ) : ℚ :=
  if i < bars.length ∧ 3 ≤ i
      ∧ (nth bars (i - 3)).close > (nth bars (i - 3)).op
      ∧ ((nth bars i).close - (nth bars (i - 3)).close)
          / ((nth bars (i - 3)).close + eps) < -dpct then 1 else 0

/-!
Wyckoff spring / upthrust, `SMCIndicators._calc_wyckoff_patterns`
(smc_indicators.py:285-355).  The trading range is
`rolling(range_lookback).max/min` shifted by one row, i.e. the extremum of
rows `[i-rl, i-1]`, defined only when `i ≥ rl`.  The 20-bar average volume is
defined when `i ≥ 19` (implied by `i ≥ rl` for the default `rl = 50`).
-/

/-- Prior-range low `low.rolling(rl).min().shift(1)` at row `i`. -/
def priorRangeLow (bars : List Bar) (rl i : ℕ) : ℚ := rollMin bars Bar.low rl (i - 1)

/-- Prior-range high `high.rolling(rl).max().shift(1)` at row `i`. -/
def priorRangeHigh (bars : List Bar) (rl i : ℕ) : ℚ := rollMax bars Bar.high rl (i - 1)

/-- The volume-confirmation condition of smc_indicators.py:313-316: volume
below `0.7×` or above `2.5×` the 20-bar average (False on NaN, `i < 19`). -/
def volumeConfirm (bars : List Bar) (i : ℕ) : Prop :=
  19 ≤ i ∧ ((nth bars i).volume < 7/10 * rollMean bars Bar.volume 20 i
    ∨ (nth bars i).volume > 5/2 * rollMean bars Bar.volume 20 i)

instance (bars : List Bar) (i : ℕ) : Decidable (volumeConfirm bars i) := by
  unfold volumeConfirm; infer_instance

/-- Column `%-wyckoff_spring` at row `i`. -/
def wyckoff_spring (bars : List Bar) (rl i : ℕ) : ℚ :=
  if i < bars.length ∧ rl ≤ i
      ∧ (nth bars i).low < priorRangeLow bars rl i
      ∧ (nth bars i).close > priorRangeLow bars rl i then 1 else 0

/-- Column `%-wyckoff_spring_confirmed` at row `i`. -/
def wyckoff_spring_confirmed (bars : List Bar) (rl i : ℕ) : ℚ :=
  if i < bars.length ∧ rl ≤ i
      ∧ (nth bars i).low < priorRangeLow bars rl i
      ∧ (nth bars i).close > priorRangeLow bars rl i
      ∧ volumeConfirm bars i then 1 else 0

/-- Column `%-wyckoff_upthrust` at row `i`. -/
def wyckoff_upthrust (bars : List Bar) (rl i : ℕ) : ℚ :=
  if i < bars.length ∧ rl ≤ i
      ∧ (nth bars i).high > priorRangeHigh bars rl i
      ∧ (nth bars i).close < priorRangeHigh bars rl i then 1 else 0

/-- Column `%-wyckoff_upthrust_confirmed` at row `i`. -/
def wyckoff_upthrust_confirmed (bars : List Bar) (rl i : ℕ) : ℚ :=
  if i < bars.length ∧ rl ≤ i
      ∧ (nth bars i).high > priorRangeHigh bars rl i
      ∧ (nth bars i).close < priorRangeHigh bars rl i
      ∧ volumeConfirm bars i then 1 else 0

/-!
Change of character, `SMCIndicators._calc_choch` (smc_indicators.py:362-401),
with `length = 20`: `swing_high = high.rolling(20).max()`,
`prev_* = *.shift(10)`; the trend booleans need rows `i ≥ 29`, the CHoCH
columns use the trend shifted one more row, so they can first fire at `i = 30`.
-/

/-- Downtrend flag `lower_low & lower_high` of `_calc_choch` at row `i`. -/
def chochDowntrend (bars : List Bar) (i : ℕ) : Prop :=
  rollMin bars Bar.low 20 i < rollMin bars Bar.low 20 (i - 10)
    ∧ rollMax bars Bar.high 20 i < rollMax bars Bar.high 20 (i - 10)

/-- Uptrend flag `higher_high & higher_low` of `_calc_choch` at row `i`. -/
def chochUptrend (bars : List Bar) (i : ℕ) : Prop :=
  rollMax bars Bar.high 20 i > rollMax bars Bar.high 20 (i - 10)
    ∧ rollMin bars Bar.low 20 i > rollMin bars Bar.low 20 (i - 10)

instance (bars : List Bar) (i : ℕ) : Decidable (chochDowntrend bars i) := by
  unfold chochDowntrend; infer_instance

instance (bars : List Bar) (i : ℕ) : Decidable (chochUptrend bars i) := by
  unfold chochUptrend; infer_instance

/-- Column `%-choch_bull` at row `i`. -/
def choch_bull (bars : List Bar) (i : ℕ) : ℚ :=
  if i < bars.length ∧ 30 ≤ i ∧ chochDowntrend bars (i - 1)
      ∧ (nth bars i).close > rollMax bars Bar.high 20 (i - 10) then 1 else 0

/-- Column `%-choch_bear` at row `i`. -/
def choch_bear (bars : List Bar) (i : ℕ) : ℚ :=
  if i < bars.length ∧ 30 ≤ i ∧ chochUptrend bars (i - 1)
      ∧ (nth bars i).close < rollMin bars Bar.low 20 (i - 10) then 1 else 0

/-!
Liquidity sweeps, `SMCIndicators._calc_liquidity_pools`
(smc_indicators.py:408-440), `lookback = 50`: a sweep above fires when the
high pierces the previous rolling swing high but the close falls back below
it; the shifted rolling extremum needs `i ≥ 50`.
-/

/-- Column `%-liquidity_swept_above` at row `i`. -/
def liquidity_swept_above (bars : List Bar) (i : ℕ) : ℚ :=
  if i < bars.length ∧ 50 ≤ i
      ∧ (nth bars i).high > rollMax bars Bar.high 50 (i - 1)
      ∧ (nth bars i).close < rollMax bars Bar.high 50 (i - 1) then 1 else 0

/-- Column `%-liquidity_swept_below` at row `i`. -/
def liquidity_swept_below (bars : List Bar) (i : ℕ) : ℚ :=
  if i < bars.length ∧ 50 ≤ i
      ∧ (nth bars i).low < rollMin bars Bar.low 50 (i - 1)
      ∧ (nth bars i).close > rollMin bars Bar.low 50 (i - 1) then 1 else 0

/-!
Concrete bar sequences used as test vectors.  All are valid OHLC data
(low ≤ open, close ≤ high on every bar).
-/

/-- Doji bar with all four prices equal and volume 100. -/
def flatBar (x : ℚ) : Bar := ⟨x, x, x, x, 100⟩

/-- Price shape of the double-top scenario: rise to a first peak of 42000 at
bar 20, fall to a trough of 40500 at bar 45, rise to a second peak of 42000
at bar 70, then decline. -/
def f5 (i : ℕ) : ℚ :=
  if i ≤ 20 then 41000 + 50 * i
  else if i ≤ 45 then 42000 - 60 * ((i : ℚ) - 20)
  else if i ≤ 70 then 40500 + 60 * ((i : ℚ) - 45)
  else 42000 - 30 * ((i : ℚ) - 70)

/-- The double-top scenario series: 100 doji bars along `f5`. -/
def S5 : List Bar := (List.range 100).map fun i => flatBar (f5 i)

/-- A 100-bar flat continuation appended to `S5` for the no-lookahead test. -/
def ext100 : List Bar := List.replicate 100 (flatBar 41000)

/-- Variant of `f5` whose second peak is 41160, putting the peak pair
exactly at the 2% tolerance boundary (|42000 - 41160| / 42000 = 1/50). -/
def f7a (i : ℕ) : ℚ :=
  if i ≤ 20 then 41000 + 50 * i
  else if i ≤ 45 then 42000 - 60 * ((i : ℚ) - 20)
  else if i ≤ 69 then 40500 + 26 * ((i : ℚ) - 45)
  else if i = 70 then 41160
  else 41160 - 30 * ((i : ℚ) - 70)

/-- Boundary series: second peak exactly 2% below the first. -/
def S7a : List Bar := (List.range 100).map fun i => flatBar (f7a i)

/-- Variant of `f7a` whose second peak is 41140, strictly beyond tolerance
(|42000 - 41140| / 42000 > 1/50). -/
def f7b (i : ℕ) : ℚ :=
  if i ≤ 20 then 41000 + 50 * i
  else if i ≤ 45 then 42000 - 60 * ((i : ℚ) - 20)
  else if i ≤ 69 then 40500 + 26 * ((i : ℚ) - 45)
  else if i = 70 then 41140
  else 41140 - 30 * ((i : ℚ) - 70)

/-- Just-beyond-tolerance series. -/
def S7b : List Bar := (List.range 100).map fun i => flatBar (f7b i)

/-- High column of the negative-confidence series: first peak 42000 at
bar 20, shallow dip, then a higher run to 42740 at bar 40, declining after. -/
def f4high (i : ℕ) : ℚ :=
  if i ≤ 20 then 41000 + 50 * i
  else if i ≤ 23 then 42000 - 100 * ((i : ℚ) - 20)
  else if i ≤ 40 then 41720 + 60 * ((i : ℚ) - 23)
  else 42740 - 60 * ((i : ℚ) - 40)

/-- Low column of the negative-confidence series: strictly increasing up to
bar 36, a single dip to 42100 at bar 37 (the only interior swing low between
the two matched swing highs, and above the first peak price 42000), rising
to bar 42, then tracking 200 below the high. -/
def f4low (i : ℕ) : ℚ :=
  if i ≤ 25 then 40000 + 20 * i
  else if i ≤ 32 then 40500 + 240 * ((i : ℚ) - 25)
  else if i ≤ 36 then 42180 + 20 * ((i : ℚ) - 32)
  else if i = 37 then 42100
  else if i ≤ 42 then 42100 + 50 * ((i : ℚ) - 37)
  else f4high i - 200

/-- The negative-confidence series: 100 bars with `open = close = low`. -/
def S4 : List Bar :=
  (List.range 100).map fun i => ⟨f4low i, f4high i, f4low i, f4low i, 100⟩

/-- Order-block test series: a bearish candle at bar 0 followed three bars
later by a close 3/99 ≈ 3.03% above the bar-0 close. -/
def S2 : List Bar :=
  [⟨100, 100, 99, 99, 100⟩, flatBar 100, flatBar 100, ⟨100, 102, 100, 102, 100⟩]

/-- Wyckoff test series: 50 bars of a 100/101 trading range, then a bar that
pierces the range low (low 99) but closes back above it (close 101) on
abnormally low volume (10 against a 20-bar average of 95.5). -/
def W : List Bar :=
  (List.replicate 50 (⟨100, 101, 100, 100, 100⟩ : Bar)) ++ [⟨101, 102, 99, 101, 10⟩]

/-- Flat witness series for the flat-series scenario. -/
def flatW : List Bar := List.replicate 60 (⟨100, 100, 100, 100, 50⟩ : Bar)

unseal Rat.add Rat.mul Rat.sub Rat.inv

set_option maxRecDepth 1000000

/-- Two-bar series refuting the short-input claim: `highs = [5, 3]` has a
clip-mode boundary extremum at index 0, reported at bar 1. -/
def S6 : List Bar := [⟨4, 5, 4, 4, 1⟩, ⟨2, 3, 2, 2, 1⟩]

/-- C3.  Aggregator formulas: the accumulation loop of `summarize_patterns`
computes `Σ clip(signal,0,1)·weight / Σ weights` for the bull and bear
scores, `net = bull - bear` exactly, `strength = max(bull, bear)` exactly,
and `has_pattern = 1` exactly when `strength > 0.1`. -/
theorem c3_aggregator_formulas (p : PatternCols) :
    pattern_bull_score p
        = (clip01 p.doubleBottom * 1 + clip01 p.headShouldersInv * (3/2)
            + clip01 p.fallingWedge * (4/5) + clip01 p.ascendingTriangle * (7/10)
            + clip01 p.bullFlag * (3/5)) / (1 + 3/2 + 4/5 + 7/10 + 3/5)
    ∧ pattern_bear_score p
        = (clip01 p.doubleTop * 1 + clip01 p.headShoulders * (3/2)
            + clip01 p.risingWedge * (4/5) + clip01 p.descendingTriangle * (7/10)
            + clip01 p.bearFlag * (3/5)) / (1 + 3/2 + 4/5 + 7/10 + 3/5)
    ∧ pattern_net_score p = pattern_bull_score p - pattern_bear_score p
    ∧ pattern_strength p = max (pattern_bull_score p) (pattern_bear_score p)
    ∧ (has_pattern p = 1 ↔ pattern_strength p > 1/10) := by
  refine ⟨?_, ?_, rfl, rfl, ?_⟩
  · show weightedSum (bullishWeighted p) / maxScore = _
    simp only [weightedSum, bullishWeighted, maxScore, List.foldl, List.sum]
    norm_num
  · show weightedSum (bearishWeighted p) / maxScore = _
    simp only [weightedSum, bearishWeighted, maxScore, List.foldl, List.sum]
    norm_num
  · unfold has_pattern
    by_cases h : pattern_strength p > 1/10
    · rw [if_pos h]; exact iff_of_true rfl h
    · rw [if_neg h]; exact iff_of_false (by norm_num) h

/-- C6, counterexample.  A two-bar series (shorter than `2*order+1 = 3` for
`order = 1`) still reports a swing high of 5 at bar 1, because the scipy
clip-mode boundary comparison lets index 0 qualify as a local maximum. -/
theorem c6_counterexample :
    S6.length = 2 ∧ S6.length < 2 * 1 + 1 ∧ swing_high_col S6 1 1 = 5 := by
  refine ⟨rfl, by decide, by decide⟩

/-- C6, amended.  Sequences with at most `order` bars (in particular the
empty sequence) yield no swing points at any index, and the extractor is a
total function; for lengths strictly between `order` and `2*order+1` swing
points can still be reported (see the counterexample). -/
theorem c6_amended (bars : List Bar) (order j : ℕ) (h : bars.length ≤ order) :
    swing_high_col bars order j = 0 ∧ swing_low_col bars order j = 0 := by
  constructor
  · unfold swing_high_col
    rw [if_neg]
    rintro ⟨h1, h2, _⟩
    omega
  · unfold swing_low_col
    rw [if_neg]
    rintro ⟨h1, h2, _⟩
    omega

/-- C6, witness for the amended theorem at a one-bar series. -/
theorem c6_witness : swing_high_col [flatBar 1] 5 0 = 0 ∧ swing_low_col [flatBar 1] 5 0 = 0 :=
  c6_amended [flatBar 1] 5 0 (by decide)

/-- C7.  Tolerance boundary of the double-top pair test: a pair whose
relative price difference equals the tolerance is accepted, one strictly
above is rejected; end to end, the boundary series `S7a`
(peaks 42000/41160, difference exactly 2%) yields a detection while `S7b`
(peaks 42000/41140, difference above 2%) yields none anywhere. -/
theorem c7_tolerance_boundary :
    (∀ p1 p2 tol : ℚ, |p1 - p2| / p1 = tol → doubleTopPairAccept p1 p2 tol = true)
    ∧ (∀ p1 p2 tol : ℚ, |p1 - p2| / p1 > tol → doubleTopPairAccept p1 p2 tol = false)
    ∧ |(42000 : ℚ) - 41160| / 42000 = 1/50
    ∧ detect_double_top_col S7a (1/50) 75 = 5/14
    ∧ |(42000 : ℚ) - 41140| / 42000 > 1/50
    ∧ (List.range 100).map (fun j => detect_double_top_col S7b (1/50) j)
        = List.replicate 100 0 := by
  refine ⟨?_, ?_, by decide, by decide, by decide, by decide⟩
  · intro p1 p2 tol h
    unfold doubleTopPairAccept
    exact decide_eq_true (le_of_eq h)
  · intro p1 p2 tol h
    unfold doubleTopPairAccept
    exact decide_eq_false (not_le.mpr h)

/-- C7, witness: the boundary test applied at the concrete pair
(100, 98) with 2% tolerance (difference exactly 2%) and at (100, 97.9)
(difference 2.1%). -/
theorem c7_witness :
    doubleTopPairAccept 100 98 (1/50) = true
    ∧ doubleTopPairAccept 100 (979/10) (1/50) = false :=
  ⟨c7_tolerance_boundary.1 100 98 (1/50) (by decide),
   c7_tolerance_boundary.2.1 100 (979/10) (1/50) (by decide)⟩

/-- C10.  The volume-confirmed Wyckoff flags are pointwise dominated by the
base flags: a confirmed spring (or upthrust) at a bar implies the plain
spring (or upthrust) flag at that bar. -/
theorem c10_confirmed_dominates (bars : List Bar) (rl i : ℕ) :
    (wyckoff_spring_confirmed bars rl i = 1 → wyckoff_spring bars rl i = 1)
    ∧ (wyckoff_upthrust_confirmed bars rl i = 1 → wyckoff_upthrust bars rl i = 1) := by
  constructor
  · intro h
    by_cases hC : i < bars.length ∧ rl ≤ i
        ∧ (nth bars i).low < priorRangeLow bars rl i
        ∧ (nth bars i).close > priorRangeLow bars rl i
        ∧ volumeConfirm bars i
    · unfold wyckoff_spring
      rw [if_pos ⟨hC.1, hC.2.1, hC.2.2.1, hC.2.2.2.1⟩]
    · unfold wyckoff_spring_confirmed at h
      rw [if_neg hC] at h
      exact absurd h (by norm_num)
  · intro h
    by_cases hC : i < bars.length ∧ rl ≤ i
        ∧ (nth bars i).high > priorRangeHigh bars rl i
        ∧ (nth bars i).close < priorRangeHigh bars rl i
        ∧ volumeConfirm bars i
    · unfold wyckoff_upthrust
      rw [if_pos ⟨hC.1, hC.2.1, hC.2.2.1, hC.2.2.2.1⟩]
    · unfold wyckoff_upthrust_confirmed at h
      rw [if_neg hC] at h
      exact absurd h (by norm_num)

/-- C10, witness: the confirmed spring of the series `W` at bar 50
propagates to the base spring flag. -/
theorem c10_witness : wyckoff_spring W 50 50 = 1 :=
  (c10_confirmed_dominates W 50 50).1 (by decide)

/-- C2, counterexample.  In `S2`, bar 0 is a down-candle and the close-to-close
move from bar 0 to bar 3 is 3/99 ≈ 3.03% ≥ 2%, yet `%-order_block_bull` is 0
at the down-candle's bar 0: the source sets the flag at the displacement bar
(bar 3), not at the down-candle's bar as the claim states. -/
theorem c2_counterexample :
    (nth S2 0).close < (nth S2 0).op
    ∧ ((nth S2 3).close - (nth S2 0).close) / (nth S2 0).close ≥ 1/50
    ∧ order_block_bull S2 (1/50) 0 = 0
    ∧ order_block_bull S2 (1/50) 3 = 1 := by
  refine ⟨by decide, by decide, by decide, by decide⟩

/-- C2, amended.  For `i ≥ 3` within the series, `%-order_block_bull` is 1 at
the displacement bar `i` (not at the candle bar `i-3`) exactly when bar `i-3`
is a down-candle and the move `(close[i]-close[i-3])/(close[i-3]+1e-10)`
strictly exceeds the displacement threshold; the bearish flag is the mirror. -/
theorem c2_amended (bars : List Bar) (dpct : ℚ) (i : ℕ)
    (h3 : 3 ≤ i) (hn : i < bars.length) :
    (order_block_bull bars dpct i = 1 ↔
      (nth bars (i - 3)).close < (nth bars (i - 3)).op
        ∧ ((nth bars i).close - (nth bars (i - 3)).close)
            / ((nth bars (i - 3)).close + eps) > dpct)
    ∧ (order_block_bear bars dpct i = 1 ↔
      (nth bars (i - 3)).close > (nth bars (i - 3)).op
        ∧ ((nth bars i).close - (nth bars (i - 3)).close)
            / ((nth bars (i - 3)).close + eps) < -dpct) := by
  constructor
  · unfold order_block_bull
    by_cases hC : (nth bars (i - 3)).close < (nth bars (i - 3)).op
        ∧ ((nth bars i).close - (nth bars (i - 3)).close)
            / ((nth bars (i - 3)).close + eps) > dpct
    · rw [if_pos ⟨hn, h3, hC.1, hC.2⟩]
      exact iff_of_true rfl hC
    · rw [if_neg (fun hAll => hC ⟨hAll.2.2.1, hAll.2.2.2⟩)]
      exact iff_of_false (by norm_num) hC
  · unfold order_block_bear
    by_cases hC : (nth bars (i - 3)).close > (nth bars (i - 3)).op
        ∧ ((nth bars i).close - (nth bars (i - 3)).close)
            / ((nth bars (i - 3)).close + eps) < -dpct
    · rw [if_pos ⟨hn, h3, hC.1, hC.2⟩]
      exact iff_of_true rfl hC
    · rw [if_neg (fun hAll => hC ⟨hAll.2.2.1, hAll.2.2.2⟩)]
      exact iff_of_false (by norm_num) hC

/-- C2, witness for the amended theorem: the displacement bar 3 of `S2`. -/
theorem c2_witness : order_block_bull S2 (1/50) 3 = 1 :=
  (c2_amended S2 (1/50) 3 (by decide) (by decide)).1.mpr (by decide)

/-- C8.  Wyckoff definitions: with a full 50-bar prior range (`i ≥ 50`), the
spring flag is 1 exactly when the bar's low breaks strictly below the minimum
of the previous 50 bars' lows (current bar excluded) while the close is
strictly back above it; the confirmed flag additionally requires volume below
0.7× or above 2.5× the 20-bar average volume; the upthrust flags mirror this
at the prior range high. -/
theorem c8_wyckoff_formulas (bars : List Bar) (i : ℕ)
    (h50 : 50 ≤ i) (hn : i < bars.length) :
    (wyckoff_spring bars 50 i = 1 ↔
      (nth bars i).low < listMin (windowList bars Bar.low (i - 50) 50)
        ∧ (nth bars i).close > listMin (windowList bars Bar.low (i - 50) 50))
    ∧ (wyckoff_spring_confirmed bars 50 i = 1 ↔
      wyckoff_spring bars 50 i = 1
        ∧ ((nth bars i).volume < 7/10 * ((windowList bars Bar.volume (i - 19) 20).sum / 20)
          ∨ (nth bars i).volume > 5/2 * ((windowList bars Bar.volume (i - 19) 20).sum / 20)))
    ∧ (wyckoff_upthrust bars 50 i = 1 ↔
      (nth bars i).high > listMax (windowList bars Bar.high (i - 50) 50)
        ∧ (nth bars i).close < listMax (windowList bars Bar.high (i - 50) 50))
    ∧ (wyckoff_upthrust_confirmed bars 50 i = 1 ↔
      wyckoff_upthrust bars 50 i = 1
        ∧ ((nth bars i).volume < 7/10 * ((windowList bars Bar.volume (i - 19) 20).sum / 20)
          ∨ (nth bars i).volume > 5/2 * ((windowList bars Bar.volume (i - 19) 20).sum / 20))) := by
  have eLow : priorRangeLow bars 50 i = listMin (windowList bars Bar.low (i - 50) 50) := by
    unfold priorRangeLow rollMin
    rw [show i - 1 + 1 - 50 = i - 50 from by omega]
  have eHigh : priorRangeHigh bars 50 i = listMax (windowList bars Bar.high (i - 50) 50) := by
    unfold priorRangeHigh rollMax
    rw [show i - 1 + 1 - 50 = i - 50 from by omega]
  have eVol : rollMean bars Bar.volume 20 i = (windowList bars Bar.volume (i - 19) 20).sum / 20 := by
    unfold rollMean
    rw [show i + 1 - 20 = i - 19 from by omega]
    norm_num
  have h19 : 19 ≤ i := by omega
  refine ⟨?_, ?_, ?_, ?_⟩
  · unfold wyckoff_spring
    simp only [eLow]
    by_cases hC : (nth bars i).low < listMin (windowList bars Bar.low (i - 50) 50)
        ∧ (nth bars i).close > listMin (windowList bars Bar.low (i - 50) 50)
    · rw [if_pos ⟨hn, h50, hC.1, hC.2⟩]
      exact iff_of_true rfl hC
    · rw [if_neg (fun hAll => hC ⟨hAll.2.2.1, hAll.2.2.2⟩)]
      exact iff_of_false (by norm_num) hC
  · unfold wyckoff_spring_confirmed wyckoff_spring volumeConfirm
    simp only [eLow, eVol]
    by_cases hC : ((nth bars i).low < listMin (windowList bars Bar.low (i - 50) 50)
        ∧ (nth bars i).close > listMin (windowList bars Bar.low (i - 50) 50))
        ∧ ((nth bars i).volume < 7/10 * ((windowList bars Bar.volume (i - 19) 20).sum / 20)
          ∨ (nth bars i).volume > 5/2 * ((windowList bars Bar.volume (i - 19) 20).sum / 20))
    · rw [if_pos ⟨hn, h50, hC.1.1, hC.1.2, h19, hC.2⟩, if_pos ⟨hn, h50, hC.1.1, hC.1.2⟩]
      exact iff_of_true rfl ⟨rfl, hC.2⟩
    · rw [if_neg (fun hAll => hC ⟨⟨hAll.2.2.1, hAll.2.2.2.1⟩, hAll.2.2.2.2.2⟩)]
      refine iff_of_false (by norm_num) (fun hAll => ?_)
      rcases hAll with ⟨hs, hv⟩
      by_cases hB : (nth bars i).low < listMin (windowList bars Bar.low (i - 50) 50)
          ∧ (nth bars i).close > listMin (windowList bars Bar.low (i - 50) 50)
      · exact hC ⟨hB, hv⟩
      · rw [if_neg (fun hAll2 => hB ⟨hAll2.2.2.1, hAll2.2.2.2⟩)] at hs
        exact absurd hs (by norm_num)
  · unfold wyckoff_upthrust
    simp only [eHigh]
    by_cases hC : (nth bars i).high > listMax (windowList bars Bar.high (i - 50) 50)
        ∧ (nth bars i).close < listMax (windowList bars Bar.high (i - 50) 50)
    · rw [if_pos ⟨hn, h50, hC.1, hC.2⟩]
      exact iff_of_true rfl hC
    · rw [if_neg (fun hAll => hC ⟨hAll.2.2.1, hAll.2.2.2⟩)]
      exact iff_of_false (by norm_num) hC
  · unfold wyckoff_upthrust_confirmed wyckoff_upthrust volumeConfirm
    simp only [eHigh, eVol]
    by_cases hC : ((nth bars i).high > listMax (windowList bars Bar.high (i - 50) 50)
        ∧ (nth bars i).close < listMax (windowList bars Bar.high (i - 50) 50))
        ∧ ((nth bars i).volume < 7/10 * ((windowList bars Bar.volume (i - 19) 20).sum / 20)
          ∨ (nth bars i).volume > 5/2 * ((windowList bars Bar.volume (i - 19) 20).sum / 20))
    · rw [if_pos ⟨hn, h50, hC.1.1, hC.1.2, h19, hC.2⟩, if_pos ⟨hn, h50, hC.1.1, hC.1.2⟩]
      exact iff_of_true rfl ⟨rfl, hC.2⟩
    · rw [if_neg (fun hAll => hC ⟨⟨hAll.2.2.1, hAll.2.2.2.1⟩, hAll.2.2.2.2.2⟩)]
      refine iff_of_false (by norm_num) (fun hAll => ?_)
      rcases hAll with ⟨hs, hv⟩
      by_cases hB : (nth bars i).high > listMax (windowList bars Bar.high (i - 50) 50)
          ∧ (nth bars i).close < listMax (windowList bars Bar.high (i - 50) 50)
      · exact hC ⟨hB, hv⟩
      · rw [if_neg (fun hAll2 => hB ⟨hAll2.2.2.1, hAll2.2.2.2⟩)] at hs
        exact absurd hs (by norm_num)

/-- C8, witness: the spring bar of `W` satisfies the formulas at `i = 50`. -/
theorem c8_witness : wyckoff_spring_confirmed W 50 50 = 1 :=
  (c8_wyckoff_formulas W 50 (by decide) (by decide)).2.1.mpr (by decide)

/-- Lower bound of pandas `clip(0, 1)`. -/
lemma clip01_nonneg (x : ℚ) : 0 ≤ clip01 x :=
  le_min (by norm_num) (le_max_left 0 x)

/-- Upper bound of pandas `clip(0, 1)`. -/
lemma clip01_le_one (x : ℚ) : clip01 x ≤ 1 := min_le_left 1 _

/-- The weighted pattern sums lie in `[0, 23/5]`. -/
lemma weightedSum_bounds (a b c d e : ℚ) :
    0 ≤ weightedSum [(a, 1), (b, 3/2), (c, 4/5), (d, 7/10), (e, 3/5)]
    ∧ weightedSum [(a, 1), (b, 3/2), (c, 4/5), (d, 7/10), (e, 3/5)] ≤ 23/5 := by
  have ha := clip01_nonneg a; have ha1 := clip01_le_one a
  have hb := clip01_nonneg b; have hb1 := clip01_le_one b
  have hc := clip01_nonneg c; have hc1 := clip01_le_one c
  have hd := clip01_nonneg d; have hd1 := clip01_le_one d
  have he := clip01_nonneg e; have he1 := clip01_le_one e
  simp only [weightedSum, List.foldl]
  constructor <;> nlinarith

/-- Bounds of the bull score. -/
lemma pattern_bull_score_bounds (p : PatternCols) :
    0 ≤ pattern_bull_score p ∧ pattern_bull_score p ≤ 1 := by
  have h := weightedSum_bounds p.doubleBottom p.headShouldersInv p.fallingWedge
    p.ascendingTriangle p.bullFlag
  have hm : maxScore = 23/5 := by norm_num [maxScore]
  unfold pattern_bull_score bullishWeighted
  rw [hm]
  constructor
  · exact div_nonneg h.1 (by norm_num)
  · rw [div_le_one (by norm_num)]
    exact h.2

/-- Bounds of the bear score. -/
lemma pattern_bear_score_bounds (p : PatternCols) :
    0 ≤ pattern_bear_score p ∧ pattern_bear_score p ≤ 1 := by
  have h := weightedSum_bounds p.doubleTop p.headShoulders p.risingWedge
    p.descendingTriangle p.bearFlag
  have hm : maxScore = 23/5 := by norm_num [maxScore]
  unfold pattern_bear_score bearishWeighted
  rw [hm]
  constructor
  · exact div_nonneg h.1 (by norm_num)
  · rw [div_le_one (by norm_num)]
    exact h.2

/-- A column built by sequential writes stays bounded by 1 when the base
column and every written value are. -/
lemma applyWrites_le_one (ws : List (ℕ × ℚ)) (f : ℕ → ℚ) (j : ℕ)
    (hf : ∀ k, f k ≤ 1) (hw : ∀ w ∈ ws, w.2 ≤ 1) : applyWrites f ws j ≤ 1 := by
  induction ws generalizing f with
  | nil => exact hf j
  | cons w ws ih =>
    simp only [applyWrites, List.foldl_cons] at *
    refine ih _ (fun k => ?_) (fun x hx => hw x (List.mem_cons_of_mem w hx))
    by_cases hk : k = w.1
    · rw [if_pos hk]; exact hw w (List.mem_cons_self w ws)
    · rw [if_neg hk]; exact hf k

/-- Every value written by the double-top pair loop is capped at 1. -/
lemma doubleTopPairWrite_le_one {bars : List Bar} {tol : ℚ} {p q : ℕ × ℚ}
    {w : ℕ × ℚ} (h : doubleTopPairWrite bars tol p q = some w) : w.2 ≤ 1 := by
  unfold doubleTopPairWrite at h
  split at h
  · split at h
    · exact Option.noConfusion h
    · dsimp only at h
      split at h
      · split at h
        · cases h
          exact min_le_left _ _
        · exact Option.noConfusion h
      · exact Option.noConfusion h
  · exact Option.noConfusion h

/-- Every value written by the double-bottom pair loop is capped at 1. -/
lemma doubleBottomPairWrite_le_one {bars : List Bar} {tol : ℚ} {p q : ℕ × ℚ}
    {w : ℕ × ℚ} (h : doubleBottomPairWrite bars tol p q = some w) : w.2 ≤ 1 := by
  unfold doubleBottomPairWrite at h
  split at h
  · split at h
    · exact Option.noConfusion h
    · dsimp only at h
      split at h
      · split at h
        · cases h
          exact min_le_left _ _
        · exact Option.noConfusion h
      · exact Option.noConfusion h
  · exact Option.noConfusion h

/-- Every value written by the head-and-shoulders triple loop is capped at 1. -/
lemma hsTripleWrite_le_one {bars : List Bar} {tol : ℚ} {a b c : ℕ × ℚ}
    {w : ℕ × ℚ} (h : hsTripleWrite bars tol a b c = some w) : w.2 ≤ 1 := by
  unfold hsTripleWrite at h
  split at h
  · split at h
    · split at h
      · dsimp only at h
        split at h
        · split at h
          · cases h
            exact min_le_left _ _
          · exact Option.noConfusion h
        · exact Option.noConfusion h
      · exact Option.noConfusion h
    · exact Option.noConfusion h
  · exact Option.noConfusion h

/-- Every value written by the inverse head-and-shoulders loop is capped at 1. -/
lemma hsInvTripleWrite_le_one {bars : List Bar} {tol : ℚ} {a b c : ℕ × ℚ}
    {w : ℕ × ℚ} (h : hsInvTripleWrite bars tol a b c = some w) : w.2 ≤ 1 := by
  unfold hsInvTripleWrite at h
  split at h
  · split at h
    · split at h
      · dsimp only at h
        split at h
        · split at h
          · cases h
            exact min_le_left _ _
          · exact Option.noConfusion h
        · exact Option.noConfusion h
      · exact Option.noConfusion h
    · exact Option.noConfusion h
  · exact Option.noConfusion h

/-- Convergence ratios of the symmetrical-triangle matcher never exceed 1. -/
lemma min_div_max_abs_le_one (a b : ℚ) : min |a| |b| / max |a| |b| ≤ 1 := by
  by_cases h : max |a| |b| = 0
  · rw [h, div_zero]
    norm_num
  · have hpos : 0 < max |a| |b| :=
      lt_of_le_of_ne (le_max_of_le_left (abs_nonneg a)) (Ne.symm h)
    exact (div_le_one hpos).mpr min_le_max

/-- C4, counterexample.  `S4` is valid OHLC data (low ≤ open, close ≤ high on
every bar), yet `detect_double_top` emits a strictly negative confidence at
bar 45: the lowest swing low between the two matched swing highs (42100 at
tail index 42) lies above the first peak (42000), so the pattern depth and
hence `min(1, depth*10)` are negative, violating `0 ≤ confidence`. -/
theorem c4_counterexample :
    (∀ i, i < S4.length →
      (nth S4 i).low ≤ (nth S4 i).op ∧ (nth S4 i).op ≤ (nth S4 i).high
        ∧ (nth S4 i).low ≤ (nth S4 i).close ∧ (nth S4 i).close ≤ (nth S4 i).high)
    ∧ detect_double_top_col S4 (1/50) 45 = -(1/42)
    ∧ detect_double_top_col S4 (1/50) 45 < 0 := by
  refine ⟨by decide, by decide, by decide⟩

/-- C4, amended.  Every per-pattern confidence is at most 1 (each write is
capped by `min(1, ...)` or is a ratio of a minimum by a maximum), but the
double-top/bottom and head-and-shoulders confidences are not bounded below
by 0 (see the counterexample); the composite scores are fully bounded:
`bull_score, bear_score ∈ [0,1]` and `net_score ∈ [-1,1]` for all inputs. -/
theorem c4_confidence_bounds :
    (∀ p : PatternCols,
      0 ≤ pattern_bull_score p ∧ pattern_bull_score p ≤ 1
        ∧ 0 ≤ pattern_bear_score p ∧ pattern_bear_score p ≤ 1
        ∧ -1 ≤ pattern_net_score p ∧ pattern_net_score p ≤ 1)
    ∧ (∀ (bars : List Bar) (tol : ℚ) (j : ℕ),
      detect_double_top_col bars tol j ≤ 1
        ∧ detect_double_bottom_col bars tol j ≤ 1
        ∧ detect_head_shoulders_col bars tol j ≤ 1
        ∧ detect_head_shoulders_inv_col bars tol j ≤ 1)
    ∧ (∀ (bars : List Bar) (lookback j : ℕ),
      detect_rising_wedge_col bars lookback j ≤ 1
        ∧ detect_falling_wedge_col bars lookback j ≤ 1
        ∧ detect_ascending_triangle_col bars lookback j ≤ 1
        ∧ detect_descending_triangle_col bars lookback j ≤ 1
        ∧ detect_symmetrical_triangle_col bars lookback j ≤ 1)
    ∧ (∀ (bars : List Bar) (pole flagL j : ℕ),
      detect_bull_flag_col bars pole flagL j ≤ 1
        ∧ detect_bear_flag_col bars pole flagL j ≤ 1) := by
  refine ⟨?_, ?_, ?_, ?_⟩
  · intro p
    have hb := pattern_bull_score_bounds p
    have hr := pattern_bear_score_bounds p
    have hnet : pattern_net_score p = pattern_bull_score p - pattern_bear_score p := rfl
    refine ⟨hb.1, hb.2, hr.1, hr.2, ?_, ?_⟩ <;> rw [hnet] <;> linarith
  · intro bars tol j
    refine ⟨?_, ?_, ?_, ?_⟩
    · unfold detect_double_top_col
      split
      · norm_num
      · split
        · norm_num
        · refine applyWrites_le_one _ _ _ (fun k => by norm_num) (fun w hw => ?_)
          obtain ⟨pq, _, heq⟩ := List.mem_filterMap.mp hw
          exact doubleTopPairWrite_le_one heq
    · unfold detect_double_bottom_col
      split
      · norm_num
      · split
        · norm_num
        · refine applyWrites_le_one _ _ _ (fun k => by norm_num) (fun w hw => ?_)
          obtain ⟨pq, _, heq⟩ := List.mem_filterMap.mp hw
          exact doubleBottomPairWrite_le_one heq
    · unfold detect_head_shoulders_col
      split
      · norm_num
      · split
        · norm_num
        · refine applyWrites_le_one _ _ _ (fun k => by norm_num) (fun w hw => ?_)
          obtain ⟨pq, _, heq⟩ := List.mem_filterMap.mp hw
          exact hsTripleWrite_le_one heq
    · unfold detect_head_shoulders_inv_col
      split
      · norm_num
      · split
        · norm_num
        · split
          · refine applyWrites_le_one _ _ _ (fun k => by norm_num) (fun w hw => ?_)
            obtain ⟨pq, _, heq⟩ := List.mem_filterMap.mp hw
            exact hsInvTripleWrite_le_one heq
          · norm_num
  · intro bars lookback j
    refine ⟨?_, ?_, ?_, ?_, ?_⟩
    · unfold detect_rising_wedge_col
      split
      · norm_num
      · split
        · dsimp only
          split
          · exact min_le_left _ _
          · norm_num
        · norm_num
    · unfold detect_falling_wedge_col
      split
      · norm_num
      · split
        · dsimp only
          split
          · exact min_le_left _ _
          · norm_num
        · norm_num
    · unfold detect_ascending_triangle_col
      split
      · norm_num
      · split
        · dsimp only
          split
          · exact min_le_left _ _
          · norm_num
        · norm_num
    · unfold detect_descending_triangle_col
      split
      · norm_num
      · split
        · dsimp only
          split
          · exact min_le_left _ _
          · norm_num
        · norm_num
    · unfold detect_symmetrical_triangle_col
      split
      · norm_num
      · split
        · dsimp only
          split
          · split
            · exact min_div_max_abs_le_one _ _
            · norm_num
          · norm_num
        · norm_num
  · intro bars pole flagL j
    constructor
    · unfold detect_bull_flag_col
      split
      · norm_num
      · split
        · dsimp only
          split
          · exact min_le_left _ _
          · norm_num
        · norm_num
    · unfold detect_bear_flag_col
      split
      · norm_num
      · split
        · dsimp only
          split
          · exact min_le_left _ _
          · norm_num
        · norm_num

/-- Row access below the original length is unchanged by appended bars. -/
lemma nth_append_lt {bars ext : List Bar} {i : ℕ} (h : i < bars.length) :
    nth (bars ++ ext) i = nth bars i := by
  unfold nth
  rw [List.getD_eq_getElem?_getD, List.getD_eq_getElem?_getD, List.getElem?_append_left h]

/-- Boolean `all` only depends on the values on the list. -/
lemma all_congr_mem {α : Type} {l : List α} {p q : α → Bool}
    (h : ∀ a ∈ l, p a = q a) : l.all p = l.all q := by
  induction l with
  | nil => rfl
  | cons x xs ih =>
    simp only [List.all_cons]
    rw [h x (List.mem_cons_self x xs), ih (fun a ha => h a (List.mem_cons_of_mem x ha))]

/-- Windows fully inside the original series are unchanged by appended bars. -/
lemma windowList_append {bars ext : List Bar} {f : Bar → ℚ} {start len : ℕ}
    (h : start + len ≤ bars.length) :
    windowList (bars ++ ext) f start len = windowList bars f start len := by
  unfold windowList
  apply List.map_congr_left
  intro s hs
  have hs' : s < len := List.mem_range.mp hs
  rw [nth_append_lt (by omega)]

/-- Swing-high detection at indices confirmed inside the original series is
unchanged by appended bars. -/
lemma isSwingHighAt_append {bars ext : List Bar} {order j : ℕ}
    (horder : order ≤ j) (h : j < bars.length) :
    isSwingHighAt (bars ++ ext) order (j - order) = isSwingHighAt bars order (j - order) := by
  have hlen := List.length_append bars ext
  unfold isSwingHighAt
  apply all_congr_mem
  intro s hs
  have hs' : s < order := List.mem_range.mp hs
  rw [min_eq_left (by omega), min_eq_left (by omega),
    nth_append_lt (show j - order < bars.length by omega),
    nth_append_lt (show j - order + (s + 1) < bars.length by omega),
    nth_append_lt (show j - order - (s + 1) < bars.length by omega)]

/-- Swing-low counterpart of `isSwingHighAt_append`. -/
lemma isSwingLowAt_append {bars ext : List Bar} {order j : ℕ}
    (horder : order ≤ j) (h : j < bars.length) :
    isSwingLowAt (bars ++ ext) order (j - order) = isSwingLowAt bars order (j - order) := by
  have hlen := List.length_append bars ext
  unfold isSwingLowAt
  apply all_congr_mem
  intro s hs
  have hs' : s < order := List.mem_range.mp hs
  rw [min_eq_left (by omega), min_eq_left (by omega),
    nth_append_lt (show j - order < bars.length by omega),
    nth_append_lt (show j - order + (s + 1) < bars.length by omega),
    nth_append_lt (show j - order - (s + 1) < bars.length by omega)]

/-- The `swing_high` column at bars of the original series is unchanged by
appended future bars. -/
lemma swing_high_col_append {bars ext : List Bar} {order j : ℕ} (h : j < bars.length) :
    swing_high_col (bars ++ ext) order j = swing_high_col bars order j := by
  have hlen := List.length_append bars ext
  by_cases horder : order ≤ j
  · unfold swing_high_col
    simp only [isSwingHighAt_append horder h]
    by_cases hsw : isSwingHighAt bars order (j - order) = true
    · rw [if_pos ⟨horder, by omega, hsw⟩, if_pos ⟨horder, h, hsw⟩,
        nth_append_lt (show j - order < bars.length by omega)]
    · rw [if_neg (fun hc => hsw hc.2.2), if_neg (fun hc => hsw hc.2.2)]
  · unfold swing_high_col
    rw [if_neg (fun hc => horder hc.1), if_neg (fun hc => horder hc.1)]

/-- The `swing_low` column at bars of the original series is unchanged by
appended future bars. -/
lemma swing_low_col_append {bars ext : List Bar} {order j : ℕ} (h : j < bars.length) :
    swing_low_col (bars ++ ext) order j = swing_low_col bars order j := by
  have hlen := List.length_append bars ext
  by_cases horder : order ≤ j
  · unfold swing_low_col
    simp only [isSwingLowAt_append horder h]
    by_cases hsw : isSwingLowAt bars order (j - order) = true
    · rw [if_pos ⟨horder, by omega, hsw⟩, if_pos ⟨horder, h, hsw⟩,
        nth_append_lt (show j - order < bars.length by omega)]
    · rw [if_neg (fun hc => hsw hc.2.2), if_neg (fun hc => hsw hc.2.2)]
  · unfold swing_low_col
    rw [if_neg (fun hc => horder hc.1), if_neg (fun hc => horder hc.1)]

/-- Rolling minima inside the original series are unchanged by appended bars. -/
lemma rollMin_append {bars ext : List Bar} {f : Bar → ℚ} {w i : ℕ}
    (h : i < bars.length) (hw : w ≤ i + 1) :
    rollMin (bars ++ ext) f w i = rollMin bars f w i := by
  unfold rollMin
  rw [windowList_append (by omega)]

/-- Rolling maxima inside the original series are unchanged by appended bars. -/
lemma rollMax_append {bars ext : List Bar} {f : Bar → ℚ} {w i : ℕ}
    (h : i < bars.length) (hw : w ≤ i + 1) :
    rollMax (bars ++ ext) f w i = rollMax bars f w i := by
  unfold rollMax
  rw [windowList_append (by omega)]

/-- Rolling means inside the original series are unchanged by appended bars. -/
lemma rollMean_append {bars ext : List Bar} {f : Bar → ℚ} {w i : ℕ}
    (h : i < bars.length) (hw : w ≤ i + 1) :
    rollMean (bars ++ ext) f w i = rollMean bars f w i := by
  unfold rollMean
  rw [windowList_append (by omega)]

/-- Volume confirmation is unchanged by appended bars. -/
lemma volumeConfirm_append {bars ext : List Bar} {i : ℕ} (h : i < bars.length) :
    volumeConfirm (bars ++ ext) i ↔ volumeConfirm bars i := by
  unfold volumeConfirm
  by_cases h19 : 19 ≤ i
  · rw [rollMean_append h (by omega), nth_append_lt h]
  · exact ⟨fun hc => absurd hc.1 h19, fun hc => absurd hc.1 h19⟩

/-- Order-block flags are unchanged by appended bars. -/
lemma order_block_bull_append {bars ext : List Bar} {dpct : ℚ} {i : ℕ}
    (h : i < bars.length) :
    order_block_bull (bars ++ ext) dpct i = order_block_bull bars dpct i := by
  have hlen := List.length_append bars ext
  unfold order_block_bull
  simp only [nth_append_lt h, nth_append_lt (show i - 3 < bars.length by omega)]
  apply if_congr _ rfl rfl
  exact ⟨fun hc => ⟨h, hc.2⟩, fun hc => ⟨by omega, hc.2⟩⟩

/-- Bearish order-block counterpart. -/
lemma order_block_bear_append {bars ext : List Bar} {dpct : ℚ} {i : ℕ}
    (h : i < bars.length) :
    order_block_bear (bars ++ ext) dpct i = order_block_bear bars dpct i := by
  have hlen := List.length_append bars ext
  unfold order_block_bear
  simp only [nth_append_lt h, nth_append_lt (show i - 3 < bars.length by omega)]
  apply if_congr _ rfl rfl
  exact ⟨fun hc => ⟨h, hc.2⟩, fun hc => ⟨by omega, hc.2⟩⟩

/-- Wyckoff spring flag is unchanged by appended bars. -/
lemma wyckoff_spring_append {bars ext : List Bar} {rl i : ℕ} (h : i < bars.length) :
    wyckoff_spring (bars ++ ext) rl i = wyckoff_spring bars rl i := by
  have hlen := List.length_append bars ext
  by_cases hrl : rl ≤ i
  · have e : priorRangeLow (bars ++ ext) rl i = priorRangeLow bars rl i := by
      unfold priorRangeLow
      exact rollMin_append (by omega) (by omega)
    unfold wyckoff_spring
    simp only [e, nth_append_lt h]
    apply if_congr _ rfl rfl
    exact ⟨fun hc => ⟨h, hc.2⟩, fun hc => ⟨by omega, hc.2⟩⟩
  · unfold wyckoff_spring
    rw [if_neg (fun hc => hrl hc.2.1), if_neg (fun hc => hrl hc.2.1)]

/-- Confirmed spring flag is unchanged by appended bars. -/
lemma wyckoff_spring_confirmed_append {bars ext : List Bar} {rl i : ℕ}
    (h : i < bars.length) :
    wyckoff_spring_confirmed (bars ++ ext) rl i = wyckoff_spring_confirmed bars rl i := by
  have hlen := List.length_append bars ext
  by_cases hrl : rl ≤ i
  · have e : priorRangeLow (bars ++ ext) rl i = priorRangeLow bars rl i := by
      unfold priorRangeLow
      exact rollMin_append (by omega) (by omega)
    unfold wyckoff_spring_confirmed
    simp only [e, nth_append_lt h]
    apply if_congr _ rfl rfl
    constructor
    · rintro ⟨_, h2, h3, h4, h5⟩
      exact ⟨h, h2, h3, h4, (volumeConfirm_append h).mp h5⟩
    · rintro ⟨_, h2, h3, h4, h5⟩
      exact ⟨by omega, h2, h3, h4, (volumeConfirm_append h).mpr h5⟩
  · unfold wyckoff_spring_confirmed
    rw [if_neg (fun hc => hrl hc.2.1), if_neg (fun hc => hrl hc.2.1)]

/-- Wyckoff upthrust flag is unchanged by appended bars. -/
lemma wyckoff_upthrust_append {bars ext : List Bar} {rl i : ℕ} (h : i < bars.length) :
    wyckoff_upthrust (bars ++ ext) rl i = wyckoff_upthrust bars rl i := by
  have hlen := List.length_append bars ext
  by_cases hrl : rl ≤ i
  · have e : priorRangeHigh (bars ++ ext) rl i = priorRangeHigh bars rl i := by
      unfold priorRangeHigh
      exact rollMax_append (by omega) (by omega)
    unfold wyckoff_upthrust
    simp only [e, nth_append_lt h]
    apply if_congr _ rfl rfl
    exact ⟨fun hc => ⟨h, hc.2⟩, fun hc => ⟨by omega, hc.2⟩⟩
  · unfold wyckoff_upthrust
    rw [if_neg (fun hc => hrl hc.2.1), if_neg (fun hc => hrl hc.2.1)]

/-- Confirmed upthrust flag is unchanged by appended bars. -/
lemma wyckoff_upthrust_confirmed_append {bars ext : List Bar} {rl i : ℕ}
    (h : i < bars.length) :
    wyckoff_upthrust_confirmed (bars ++ ext) rl i = wyckoff_upthrust_confirmed bars rl i := by
  have hlen := List.length_append bars ext
  by_cases hrl : rl ≤ i
  · have e : priorRangeHigh (bars ++ ext) rl i = priorRangeHigh bars rl i := by
      unfold priorRangeHigh
      exact rollMax_append (by omega) (by omega)
    unfold wyckoff_upthrust_confirmed
    simp only [e, nth_append_lt h]
    apply if_congr _ rfl rfl
    constructor
    · rintro ⟨_, h2, h3, h4, h5⟩
      exact ⟨h, h2, h3, h4, (volumeConfirm_append h).mp h5⟩
    · rintro ⟨_, h2, h3, h4, h5⟩
      exact ⟨by omega, h2, h3, h4, (volumeConfirm_append h).mpr h5⟩
  · unfold wyckoff_upthrust_confirmed
    rw [if_neg (fun hc => hrl hc.2.1), if_neg (fun hc => hrl hc.2.1)]

/-- CHoCH trend classification is unchanged by appended bars. -/
lemma chochDowntrend_append {bars ext : List Bar} {i : ℕ}
    (h : i < bars.length) (h29 : 29 ≤ i) :
    chochDowntrend (bars ++ ext) i ↔ chochDowntrend bars i := by
  unfold chochDowntrend
  rw [rollMin_append h (by omega), rollMin_append (show i - 10 < bars.length by omega) (by omega),
    rollMax_append h (by omega), rollMax_append (show i - 10 < bars.length by omega) (by omega)]

/-- Uptrend counterpart of `chochDowntrend_append`. -/
lemma chochUptrend_append {bars ext : List Bar} {i : ℕ}
    (h : i < bars.length) (h29 : 29 ≤ i) :
    chochUptrend (bars ++ ext) i ↔ chochUptrend bars i := by
  unfold chochUptrend
  rw [rollMin_append h (by omega), rollMin_append (show i - 10 < bars.length by omega) (by omega),
    rollMax_append h (by omega), rollMax_append (show i - 10 < bars.length by omega) (by omega)]

/-- Bullish CHoCH flag is unchanged by appended bars. -/
lemma choch_bull_append {bars ext : List Bar} {i : ℕ} (h : i < bars.length) :
    choch_bull (bars ++ ext) i = choch_bull bars i := by
  have hlen := List.length_append bars ext
  by_cases h30 : 30 ≤ i
  · unfold choch_bull
    simp only [nth_append_lt h,
      rollMax_append (show i - 10 < bars.length by omega) (show 20 ≤ i - 10 + 1 by omega)]
    apply if_congr _ rfl rfl
    constructor
    · rintro ⟨_, h2, h3, h4⟩
      exact ⟨h, h2, (chochDowntrend_append (by omega) (by omega)).mp h3, h4⟩
    · rintro ⟨_, h2, h3, h4⟩
      exact ⟨by omega, h2, (chochDowntrend_append (by omega) (by omega)).mpr h3, h4⟩
  · unfold choch_bull
    rw [if_neg (fun hc => h30 hc.2.1), if_neg (fun hc => h30 hc.2.1)]

/-- Bearish CHoCH flag is unchanged by appended bars. -/
lemma choch_bear_append {bars ext : List Bar} {i : ℕ} (h : i < bars.length) :
    choch_bear (bars ++ ext) i = choch_bear bars i := by
  have hlen := List.length_append bars ext
  by_cases h30 : 30 ≤ i
  · unfold choch_bear
    simp only [nth_append_lt h,
      rollMin_append (show i - 10 < bars.length by omega) (show 20 ≤ i - 10 + 1 by omega)]
    apply if_congr _ rfl rfl
    constructor
    · rintro ⟨_, h2, h3, h4⟩
      exact ⟨h, h2, (chochUptrend_append (by omega) (by omega)).mp h3, h4⟩
    · rintro ⟨_, h2, h3, h4⟩
      exact ⟨by omega, h2, (chochUptrend_append (by omega) (by omega)).mpr h3, h4⟩
  · unfold choch_bear
    rw [if_neg (fun hc => h30 hc.2.1), if_neg (fun hc => h30 hc.2.1)]

/-- Liquidity sweep (above) is unchanged by appended bars. -/
lemma liquidity_swept_above_append {bars ext : List Bar} {i : ℕ} (h : i < bars.length) :
    liquidity_swept_above (bars ++ ext) i = liquidity_swept_above bars i := by
  have hlen := List.length_append bars ext
  by_cases h50 : 50 ≤ i
  · unfold liquidity_swept_above
    simp only [nth_append_lt h,
      rollMax_append (show i - 1 < bars.length by omega) (show 50 ≤ i - 1 + 1 by omega)]
    apply if_congr _ rfl rfl
    exact ⟨fun hc => ⟨h, hc.2⟩, fun hc => ⟨by omega, hc.2⟩⟩
  · unfold liquidity_swept_above
    rw [if_neg (fun hc => h50 hc.2.1), if_neg (fun hc => h50 hc.2.1)]

/-- Liquidity sweep (below) is unchanged by appended bars. -/
lemma liquidity_swept_below_append {bars ext : List Bar} {i : ℕ} (h : i < bars.length) :
    liquidity_swept_below (bars ++ ext) i = liquidity_swept_below bars i := by
  have hlen := List.length_append bars ext
  by_cases h50 : 50 ≤ i
  · unfold liquidity_swept_below
    simp only [nth_append_lt h,
      rollMin_append (show i - 1 < bars.length by omega) (show 50 ≤ i - 1 + 1 by omega)]
    apply if_congr _ rfl rfl
    exact ⟨fun hc => ⟨h, hc.2⟩, fun hc => ⟨by omega, hc.2⟩⟩
  · unfold liquidity_swept_below
    rw [if_neg (fun hc => h50 hc.2.1), if_neg (fun hc => h50 hc.2.1)]

/-- C1, counterexample.  The double-top detection of `S5` reported at the
past bar 75 (confidence 5/14 > 0) vanishes when 100 future bars are
appended: the matcher anchors its swing scan to `dataframe.tail(100)` and
converts tail positions back with the hardcoded `len(dataframe) - 100`
offset, so appending future bars changes a value already reported at a past
bar — the pattern detector is not prefix stable. -/
theorem c1_counterexample :
    75 < S5.length
    ∧ detect_double_top_col S5 (1/50) 75 = 5/14
    ∧ detect_double_top_col (S5 ++ ext100) (1/50) 75 = 0 := by
  refine ⟨by decide, by decide, by decide⟩

/-- C1, amended.  Restricted to swing points and structure events the claim
holds: at every bar of the original series, the swing_high/swing_low
columns and order-block, Wyckoff, CHoCH and liquidity-sweep flags are
identical whether computed on the original series or on the series with any
future bars appended (the pattern matcher columns are excluded: they are
anchored to the last 100 bars and are not prefix stable, see the
counterexample). -/
theorem c1_no_lookahead (bars ext : List Bar) (order rl : ℕ) (dpct : ℚ) (j : ℕ)
    (h : j < bars.length) :
    swing_high_col (bars ++ ext) order j = swing_high_col bars order j
    ∧ swing_low_col (bars ++ ext) order j = swing_low_col bars order j
    ∧ order_block_bull (bars ++ ext) dpct j = order_block_bull bars dpct j
    ∧ order_block_bear (bars ++ ext) dpct j = order_block_bear bars dpct j
    ∧ wyckoff_spring (bars ++ ext) rl j = wyckoff_spring bars rl j
    ∧ wyckoff_spring_confirmed (bars ++ ext) rl j = wyckoff_spring_confirmed bars rl j
    ∧ wyckoff_upthrust (bars ++ ext) rl j = wyckoff_upthrust bars rl j
    ∧ wyckoff_upthrust_confirmed (bars ++ ext) rl j = wyckoff_upthrust_confirmed bars rl j
    ∧ choch_bull (bars ++ ext) j = choch_bull bars j
    ∧ choch_bear (bars ++ ext) j = choch_bear bars j
    ∧ liquidity_swept_above (bars ++ ext) j = liquidity_swept_above bars j
    ∧ liquidity_swept_below (bars ++ ext) j = liquidity_swept_below bars j :=
  ⟨swing_high_col_append h, swing_low_col_append h,
   order_block_bull_append h, order_block_bear_append h,
   wyckoff_spring_append h, wyckoff_spring_confirmed_append h,
   wyckoff_upthrust_append h, wyckoff_upthrust_confirmed_append h,
   choch_bull_append h, choch_bear_append h,
   liquidity_swept_above_append h, liquidity_swept_below_append h⟩

/-- C1, witness: the amended no-lookahead theorem applied to `S5` extended
by `ext100` at bar 75 with the default parameters. -/
theorem c1_witness :
    swing_high_col (S5 ++ ext100) 5 75 = swing_high_col S5 5 75
    ∧ swing_low_col (S5 ++ ext100) 5 75 = swing_low_col S5 5 75
    ∧ order_block_bull (S5 ++ ext100) (1/50) 75 = order_block_bull S5 (1/50) 75
    ∧ order_block_bear (S5 ++ ext100) (1/50) 75 = order_block_bear S5 (1/50) 75
    ∧ wyckoff_spring (S5 ++ ext100) 50 75 = wyckoff_spring S5 50 75
    ∧ wyckoff_spring_confirmed (S5 ++ ext100) 50 75 = wyckoff_spring_confirmed S5 50 75
    ∧ wyckoff_upthrust (S5 ++ ext100) 50 75 = wyckoff_upthrust S5 50 75
    ∧ wyckoff_upthrust_confirmed (S5 ++ ext100) 50 75 = wyckoff_upthrust_confirmed S5 50 75
    ∧ choch_bull (S5 ++ ext100) 75 = choch_bull S5 75
    ∧ choch_bear (S5 ++ ext100) 75 = choch_bear S5 75
    ∧ liquidity_swept_above (S5 ++ ext100) 75 = liquidity_swept_above S5 75
    ∧ liquidity_swept_below (S5 ++ ext100) 75 = liquidity_swept_below S5 75 :=
  c1_no_lookahead S5 ext100 5 50 (1/50) 75 (by decide)

/-- C5, counterexample.  In the double-top scenario `S5` the second peak sits
at bar 70 (`high = 42000`, a swing maximum), but the `%-double_top` column is
0 at bar 70: the detection is written at the swing-confirmation bar 75, five
bars after the second peak, so the claim "written at the second peak's bar
index" fails. -/
theorem c5_counterexample :
    isSwingHighAt S5 5 70 = true
    ∧ (nth S5 70).high = 42000
    ∧ detect_double_top_col S5 (1/50) 70 = 0
    ∧ detect_double_top_col S5 (1/50) 75 = 5/14 := by
  refine ⟨by decide, by decide, by decide, by decide⟩

/-- C5, amended.  The scenario series `S5` (two 42000 peaks at bars 20 and
70 with a 40500 trough at bar 45) yields exactly one double-top detection,
with confidence 5/14 > 0, placed at bar 75 — the confirmation bar of the
second peak (peak bar 70 plus swing order 5) — and at no earlier bar. -/
theorem c5_double_top_scenario :
    (List.range 100).map (fun j => detect_double_top_col S5 (1/50) j)
        = List.replicate 75 0 ++ (5/14 : ℚ) :: List.replicate 24 0
    ∧ (0 : ℚ) < 5/14
    ∧ isSwingHighAt S5 5 70 = true
    ∧ swing_high_col S5 5 75 = 42000
    ∧ swing_low_col S5 5 50 = 40500 := by
  refine ⟨by decide, by decide, by decide, by decide, by decide⟩

/-- A filterMap over `range` keeping exactly the indices at or above a
threshold produces the mapped run of consecutive indices. -/
lemma filterMap_range_threshold {α : Type} (v : ℕ → α) (t0 : ℕ) :
    ∀ m : ℕ, (List.range m).filterMap (fun t => if t0 ≤ t then some (t, v t) else none)
      = (List.range' t0 (m - t0)).map (fun t => (t, v t)) := by
  intro m
  induction m with
  | zero => simp
  | succ m ih =>
    rw [List.range_succ, List.filterMap_append, ih]
    by_cases h : t0 ≤ m
    · rw [show m + 1 - t0 = (m - t0) + 1 from by omega, List.range'_1_concat,
        List.map_append, show t0 + (m - t0) = m from by omega]
      simp [h]
    · rw [show m + 1 - t0 = m - t0 from by omega]
      simp [h]

/-- Adjacent pairs of a mapped run of consecutive indices: each pair is a
mapped `(t, t+1)`. -/
lemma consecPairs_range'_map {α : Type} (g : ℕ → α) :
    ∀ (k a : ℕ), consecPairs ((List.range' a k).map g)
      = (List.range' a (k - 1)).map (fun t => (g t, g (t + 1))) := by
  intro k
  induction k with
  | zero => intro a; rfl
  | succ k ih =>
    intro a
    cases k with
    | zero => rfl
    | succ k2 =>
      have e3 : (List.range' a (k2 + 2)).map g
          = g a :: g (a + 1) :: (List.range' (a + 2) k2).map g := by
        rw [List.range'_succ, List.range'_succ, List.map_cons, List.map_cons]
      have e4 : consecPairs (g a :: g (a + 1) :: (List.range' (a + 2) k2).map g)
          = (g a, g (a + 1)) :: consecPairs (g (a + 1) :: (List.range' (a + 2) k2).map g) := rfl
      have e5 : g (a + 1) :: (List.range' (a + 2) k2).map g
          = (List.range' (a + 1) (k2 + 1)).map g := by
        rw [List.range'_succ, List.map_cons]
      rw [e3, e4, e5, ih (a + 1), show k2 + 2 - 1 = k2 + 1 from rfl,
        show k2 + 1 - 1 = k2 from rfl, List.range'_succ, List.map_cons]

/-- Folding `min` over copies of the base value is the identity. -/
lemma foldl_min_replicate (k : ℕ) (x : ℚ) :
    (List.replicate k x).foldl min x = x := by
  induction k with
  | zero => rfl
  | succ k ih => rw [List.replicate_succ, List.foldl_cons, min_self]; exact ih

/-- Folding `max` over copies of the base value is the identity. -/
lemma foldl_max_replicate (k : ℕ) (x : ℚ) :
    (List.replicate k x).foldl max x = x := by
  induction k with
  | zero => rfl
  | succ k ih => rw [List.replicate_succ, List.foldl_cons, max_self]; exact ih

/-- Minimum of a nonempty constant list. -/
lemma listMin_replicate {w : ℕ} (hw : 0 < w) (x : ℚ) :
    listMin (List.replicate w x) = x := by
  cases w with
  | zero => omega
  | succ k => rw [List.replicate_succ]; exact foldl_min_replicate k x

/-- Maximum of a nonempty constant list. -/
lemma listMax_replicate {w : ℕ} (hw : 0 < w) (x : ℚ) :
    listMax (List.replicate w x) = x := by
  cases w with
  | zero => omega
  | succ k => rw [List.replicate_succ]; exact foldl_max_replicate k x

/-- A perfectly flat price series: all four price columns equal `c` on
every bar (volume is unconstrained). -/
def IsFlat (bars : List Bar) (c : ℚ) : Prop :=
  ∀ i, i < bars.length →
    (nth bars i).op = c ∧ (nth bars i).high = c ∧ (nth bars i).low = c ∧ (nth bars i).close = c

instance (bars : List Bar) (c : ℚ) : Decidable (IsFlat bars c) := by
  unfold IsFlat
  infer_instance

/-- On a flat series every in-range index is a plateau swing high. -/
lemma flat_isSwingHighAt {bars : List Bar} {c : ℚ} (hf : IsFlat bars c)
    {order idx : ℕ} (hidx : idx < bars.length) :
    isSwingHighAt bars order idx = true := by
  unfold isSwingHighAt
  rw [List.all_eq_true]
  intro s _
  simp only [Bool.and_eq_true, decide_eq_true_eq]
  constructor
  · rw [(hf idx hidx).2.1, (hf (min (idx + (s + 1)) (bars.length - 1)) (by omega)).2.1]
  · rw [(hf idx hidx).2.1, (hf (idx - (s + 1)) (by omega)).2.1]

/-- On a flat series every in-range index is a plateau swing low. -/
lemma flat_isSwingLowAt {bars : List Bar} {c : ℚ} (hf : IsFlat bars c)
    {order idx : ℕ} (hidx : idx < bars.length) :
    isSwingLowAt bars order idx = true := by
  unfold isSwingLowAt
  rw [List.all_eq_true]
  intro s _
  simp only [Bool.and_eq_true, decide_eq_true_eq]
  constructor
  · rw [(hf idx hidx).2.2.1, (hf (min (idx + (s + 1)) (bars.length - 1)) (by omega)).2.2.1]
  · rw [(hf idx hidx).2.2.1, (hf (idx - (s + 1)) (by omega)).2.2.1]

/-- On a flat series the swing_high column is `c` at every confirmable bar. -/
lemma flat_swing_high_col {bars : List Bar} {c : ℚ} (hf : IsFlat bars c)
    {order j : ℕ} (h1 : order ≤ j) (h2 : j < bars.length) :
    swing_high_col bars order j = c := by
  unfold swing_high_col
  rw [if_pos ⟨h1, h2, flat_isSwingHighAt hf (by omega)⟩]
  exact (hf (j - order) (by omega)).2.1

/-- On a flat series the swing_low column is `c` at every confirmable bar. -/
lemma flat_swing_low_col {bars : List Bar} {c : ℚ} (hf : IsFlat bars c)
    {order j : ℕ} (h1 : order ≤ j) (h2 : j < bars.length) :
    swing_low_col bars order j = c := by
  unfold swing_low_col
  rw [if_pos ⟨h1, h2, flat_isSwingLowAt hf (by omega)⟩]
  exact (hf (j - order) (by omega)).2.2.1

/-- On a flat series the recent swing highs form a run of consecutive tail
positions, all carrying the price `c`. -/
lemma recentSwingHighs_flat {bars : List Bar} {c : ℚ} (hf : IsFlat bars c) (hc : 0 < c) :
    recentSwingHighs bars
      = (List.range' (5 - tailStart bars) (tailLen bars - (5 - tailStart bars))).map
          (fun t => (t, c)) := by
  have htail : tailStart bars + tailLen bars = bars.length := by
    unfold tailStart tailLen
    omega
  unfold recentSwingHighs
  rw [List.filterMap_congr (g := fun t => if 5 - tailStart bars ≤ t then some (t, c) else none) ?_]
  · exact filterMap_range_threshold (fun _ => c) (5 - tailStart bars) (tailLen bars)
  · intro t ht
    have ht' : t < tailLen bars := List.mem_range.mp ht
    by_cases h5 : 5 ≤ tailStart bars + t
    · have hcol : swing_high_col bars 5 (tailStart bars + t) = c :=
        flat_swing_high_col hf h5 (by omega)
      dsimp only
      rw [hcol, if_pos hc, if_pos (by omega)]
    · have hcol : swing_high_col bars 5 (tailStart bars + t) = 0 := by
        unfold swing_high_col
        exact if_neg (fun hcond => h5 hcond.1)
      dsimp only
      rw [hcol, if_neg (by norm_num), if_neg (by omega)]

/-- Low-side counterpart of `recentSwingHighs_flat`. -/
lemma recentSwingLows_flat {bars : List Bar} {c : ℚ} (hf : IsFlat bars c) (hc : 0 < c) :
    recentSwingLows bars
      = (List.range' (5 - tailStart bars) (tailLen bars - (5 - tailStart bars))).map
          (fun t => (t, c)) := by
  have htail : tailStart bars + tailLen bars = bars.length := by
    unfold tailStart tailLen
    omega
  unfold recentSwingLows
  rw [List.filterMap_congr (g := fun t => if 5 - tailStart bars ≤ t then some (t, c) else none) ?_]
  · exact filterMap_range_threshold (fun _ => c) (5 - tailStart bars) (tailLen bars)
  · intro t ht
    have ht' : t < tailLen bars := List.mem_range.mp ht
    by_cases h5 : 5 ≤ tailStart bars + t
    · have hcol : swing_low_col bars 5 (tailStart bars + t) = c :=
        flat_swing_low_col hf h5 (by omega)
      dsimp only
      rw [hcol, if_pos hc, if_pos (by omega)]
    · have hcol : swing_low_col bars 5 (tailStart bars + t) = 0 := by
        unfold swing_low_col
        exact if_neg (fun hcond => h5 hcond.1)
      dsimp only
      rw [hcol, if_neg (by norm_num), if_neg (by omega)]

/-- No bar index lies strictly between two consecutive naturals, so the
neckline candidate filter between adjacent flat swings is empty. -/
lemma middle_filter_nil (l : List (ℕ × ℚ)) (t : ℕ) :
    l.filter (fun x => decide (t < x.1 ∧ x.1 < t + 1)) = [] :=
  List.filter_eq_nil_iff.mpr (fun x _ => by simp; omega)

/-- On a flat series the double-top pair loop produces no writes. -/
lemma doubleTopWrites_flat {bars : List Bar} {c : ℚ} (hf : IsFlat bars c)
    (hc : 0 < c) (tol : ℚ) : doubleTopWrites bars tol = [] := by
  unfold doubleTopWrites
  rw [List.filterMap_eq_nil_iff]
  intro pq hpq
  rw [recentSwingHighs_flat hf hc, consecPairs_range'_map] at hpq
  obtain ⟨t, _, rfl⟩ := List.mem_map.mp hpq
  unfold doubleTopPairWrite
  rw [middle_filter_nil]
  split <;> rfl

/-- On a flat series the double-bottom pair loop produces no writes. -/
lemma doubleBottomWrites_flat {bars : List Bar} {c : ℚ} (hf : IsFlat bars c)
    (hc : 0 < c) (tol : ℚ) : doubleBottomWrites bars tol = [] := by
  unfold doubleBottomWrites
  rw [List.filterMap_eq_nil_iff]
  intro pq hpq
  rw [recentSwingLows_flat hf hc, consecPairs_range'_map] at hpq
  obtain ⟨t, _, rfl⟩ := List.mem_map.mp hpq
  unfold doubleBottomPairWrite
  rw [middle_filter_nil]
  split <;> rfl

/-- On a flat series the `%-double_top` column is identically zero. -/
lemma flat_double_top {bars : List Bar} {c : ℚ} (hf : IsFlat bars c) (hc : 0 < c)
    (tol : ℚ) (j : ℕ) : detect_double_top_col bars tol j = 0 := by
  unfold detect_double_top_col
  split
  · rfl
  · split
    · rfl
    · rw [doubleTopWrites_flat hf hc]
      rfl

/-- On a flat series the `%-double_bottom` column is identically zero. -/
lemma flat_double_bottom {bars : List Bar} {c : ℚ} (hf : IsFlat bars c) (hc : 0 < c)
    (tol : ℚ) (j : ℕ) : detect_double_bottom_col bars tol j = 0 := by
  unfold detect_double_bottom_col
  split
  · rfl
  · split
    · rfl
    · rw [doubleBottomWrites_flat hf hc]
      rfl

/-- All recent swing prices on a flat series equal `c`. -/
lemma mem_recentSwingHighs_flat {bars : List Bar} {c : ℚ} (hf : IsFlat bars c)
    (hc : 0 < c) {x : ℕ × ℚ} (hx : x ∈ recentSwingHighs bars) : x.2 = c := by
  rw [recentSwingHighs_flat hf hc] at hx
  obtain ⟨t, _, rfl⟩ := List.mem_map.mp hx
  rfl

/-- All recent swing-low prices on a flat series equal `c`. -/
lemma mem_recentSwingLows_flat {bars : List Bar} {c : ℚ} (hf : IsFlat bars c)
    (hc : 0 < c) {x : ℕ × ℚ} (hx : x ∈ recentSwingLows bars) : x.2 = c := by
  rw [recentSwingLows_flat hf hc] at hx
  obtain ⟨t, _, rfl⟩ := List.mem_map.mp hx
  rfl

/-- On a flat series the head-and-shoulders loop produces no writes: the
head is never strictly higher than the shoulders. -/
lemma hsWrites_flat {bars : List Bar} {c : ℚ} (hf : IsFlat bars c) (hc : 0 < c)
    (tol : ℚ) : hsWrites bars tol = [] := by
  unfold hsWrites
  rw [List.filterMap_eq_nil_iff]
  intro tr htr
  unfold consecTriples at htr
  obtain ⟨h1, h2⟩ := List.of_mem_zip htr
  obtain ⟨h2a, _⟩ := List.of_mem_zip h2
  have ha : tr.1.2 = c := mem_recentSwingHighs_flat hf hc h1
  have hb : tr.2.1.2 = c := mem_recentSwingHighs_flat hf hc (List.mem_of_mem_tail h2a)
  unfold hsTripleWrite
  rw [if_neg]
  intro hcond
  rw [Bool.and_eq_true, decide_eq_true_eq, decide_eq_true_eq] at hcond
  rw [ha, hb] at hcond
  exact lt_irrefl c hcond.1

/-- On a flat series the inverse head-and-shoulders loop produces no writes. -/
lemma hsInvWrites_flat {bars : List Bar} {c : ℚ} (hf : IsFlat bars c) (hc : 0 < c)
    (tol : ℚ) : hsInvWrites bars tol = [] := by
  unfold hsInvWrites
  rw [List.filterMap_eq_nil_iff]
  intro tr htr
  unfold consecTriples at htr
  obtain ⟨h1, h2⟩ := List.of_mem_zip htr
  obtain ⟨h2a, _⟩ := List.of_mem_zip h2
  have ha : tr.1.2 = c := mem_recentSwingLows_flat hf hc h1
  have hb : tr.2.1.2 = c := mem_recentSwingLows_flat hf hc (List.mem_of_mem_tail h2a)
  unfold hsInvTripleWrite
  rw [if_neg]
  intro hcond
  rw [Bool.and_eq_true, decide_eq_true_eq, decide_eq_true_eq] at hcond
  rw [ha, hb] at hcond
  exact lt_irrefl c hcond.1

/-- On a flat series the `%-head_shoulders` column is identically zero. -/
lemma flat_head_shoulders {bars : List Bar} {c : ℚ} (hf : IsFlat bars c) (hc : 0 < c)
    (tol : ℚ) (j : ℕ) : detect_head_shoulders_col bars tol j = 0 := by
  unfold detect_head_shoulders_col
  split
  · rfl
  · split
    · rfl
    · rw [hsWrites_flat hf hc]
      rfl

/-- On a flat series the `%-head_shoulders_inv` column is identically zero. -/
lemma flat_head_shoulders_inv {bars : List Bar} {c : ℚ} (hf : IsFlat bars c) (hc : 0 < c)
    (tol : ℚ) (j : ℕ) : detect_head_shoulders_inv_col bars tol j = 0 := by
  unfold detect_head_shoulders_inv_col
  split
  · rfl
  · split
    · rfl
    · split
      · rw [hsInvWrites_flat hf hc]
        rfl
      · rfl

/-- Length of an `iloc` window. -/
lemma windowList_length (bars : List Bar) (f : Bar → ℚ) (start len : ℕ) :
    (windowList bars f start len).length = len := by
  unfold windowList
  rw [List.length_map, List.length_range]

/-- Entries of an in-range window of a constant column are the constant. -/
lemma windowList_getD {bars : List Bar} {f : Bar → ℚ} {c : ℚ}
    (hfv : ∀ i, i < bars.length → f (nth bars i) = c) {start len : ℕ}
    (hb : start + len ≤ bars.length) :
    ∀ k, k < len → (windowList bars f start len).getD k 0 = c := by
  intro k hk
  unfold windowList
  rw [List.getD_eq_getElem?_getD, List.getElem?_map, List.getElem?_range hk]
  exact hfv (start + k) (by omega)

/-- An in-range window of a constant column is a constant list. -/
lemma windowList_flat_replicate {bars : List Bar} {f : Bar → ℚ} {c : ℚ}
    (hfv : ∀ i, i < bars.length → f (nth bars i) = c) {start len : ℕ}
    (hb : start + len ≤ bars.length) :
    windowList bars f start len = List.replicate len c := by
  apply List.eq_replicate_iff.mpr
  refine ⟨windowList_length bars f start len, fun b hbm => ?_⟩
  unfold windowList at hbm
  obtain ⟨s, hs, rfl⟩ := List.mem_map.mp hbm
  exact hfv (start + s) (by have := List.mem_range.mp hs; omega)

/-- The least-squares slope of a constant sequence is zero. -/
lemma lsSlope_flat {ys : List ℚ} {c : ℚ}
    (h : ∀ k, k < ys.length → ys.getD k 0 = c) : lsSlope ys = 0 := by
  unfold lsSlope
  dsimp only
  have h1 : ∑ i in Finset.range ys.length, ys.getD i 0 = (ys.length : ℚ) * c := by
    rw [Finset.sum_congr rfl (fun i hi => h i (Finset.mem_range.mp hi)),
      Finset.sum_const, Finset.card_range, nsmul_eq_mul]
  have h2 : ∑ i in Finset.range ys.length, (i : ℚ) * ys.getD i 0
      = (∑ i in Finset.range ys.length, (i : ℚ)) * c := by
    rw [Finset.sum_mul]
    exact Finset.sum_congr rfl (fun i hi => by rw [h i (Finset.mem_range.mp hi)])
  rw [h1, h2]
  have h3 : (ys.length : ℚ) * ((∑ i in Finset.range ys.length, (i : ℚ)) * c)
      - (∑ i in Finset.range ys.length, (i : ℚ)) * ((ys.length : ℚ) * c) = 0 := by
    ring
  rw [h3, zero_div]

/-- Normalised slopes vanish on a flat series. -/
lemma slopePct_flat {bars : List Bar} {f : Bar → ℚ} {c : ℚ}
    (hfv : ∀ i, i < bars.length → f (nth bars i) = c) {lookback j : ℕ}
    (hl : lookback ≤ j) (hj : j < bars.length) :
    slopePct bars f lookback j = 0 := by
  unfold slopePct
  have hres : lsSlope (windowList bars f (j - lookback) lookback) = 0 := by
    apply lsSlope_flat (c := c)
    intro k hk
    rw [windowList_length] at hk
    exact windowList_getD hfv (by omega) k hk
  rw [hres, zero_div]

/-- On a flat series the `%-rising_wedge` column is identically zero. -/
lemma flat_rising_wedge {bars : List Bar} {c : ℚ} (hf : IsFlat bars c)
    (lookback j : ℕ) : detect_rising_wedge_col bars lookback j = 0 := by
  unfold detect_rising_wedge_col
  split
  · rfl
  · split
    · next hcond =>
      dsimp only
      rw [slopePct_flat (fun i hi => (hf i hi).2.1) hcond.1 hcond.2]
      rw [if_neg]
      rintro ⟨hp, _⟩
      exact lt_irrefl 0 hp
    · rfl

/-- On a flat series the `%-falling_wedge` column is identically zero. -/
lemma flat_falling_wedge {bars : List Bar} {c : ℚ} (hf : IsFlat bars c)
    (lookback j : ℕ) : detect_falling_wedge_col bars lookback j = 0 := by
  unfold detect_falling_wedge_col
  split
  · rfl
  · split
    · next hcond =>
      dsimp only
      rw [slopePct_flat (fun i hi => (hf i hi).2.1) hcond.1 hcond.2]
      rw [if_neg]
      rintro ⟨hp, _⟩
      exact lt_irrefl 0 hp
    · rfl

/-- On a flat series the `%-ascending_triangle` column is identically zero. -/
lemma flat_ascending_triangle {bars : List Bar} {c : ℚ} (hf : IsFlat bars c)
    (lookback j : ℕ) : detect_ascending_triangle_col bars lookback j = 0 := by
  unfold detect_ascending_triangle_col
  split
  · rfl
  · split
    · next hcond =>
      dsimp only
      rw [slopePct_flat (fun i hi => (hf i hi).2.2.1) hcond.1 hcond.2]
      rw [if_neg]
      rintro ⟨_, hp⟩
      exact absurd hp (by norm_num)
    · rfl

/-- On a flat series the `%-descending_triangle` column is identically zero. -/
lemma flat_descending_triangle {bars : List Bar} {c : ℚ} (hf : IsFlat bars c)
    (lookback j : ℕ) : detect_descending_triangle_col bars lookback j = 0 := by
  unfold detect_descending_triangle_col
  split
  · rfl
  · split
    · next hcond =>
      dsimp only
      rw [slopePct_flat (fun i hi => (hf i hi).2.1) hcond.1 hcond.2]
      rw [if_neg]
      rintro ⟨hp, _⟩
      exact absurd hp (by norm_num)
    · rfl

/-- On a flat series the `%-symmetrical_triangle` column is identically zero. -/
lemma flat_symmetrical_triangle {bars : List Bar} {c : ℚ} (hf : IsFlat bars c)
    (lookback j : ℕ) : detect_symmetrical_triangle_col bars lookback j = 0 := by
  unfold detect_symmetrical_triangle_col
  split
  · rfl
  · split
    · next hcond =>
      dsimp only
      rw [slopePct_flat (fun i hi => (hf i hi).2.1) hcond.1 hcond.2]
      rw [if_neg]
      rintro ⟨hp, _⟩
      exact lt_irrefl 0 hp
    · rfl

/-- On a flat series the `%-bull_flag` column is identically zero. -/
lemma flat_bull_flag {bars : List Bar} {c : ℚ} (hf : IsFlat bars c)
    (pole flagL j : ℕ) : detect_bull_flag_col bars pole flagL j = 0 := by
  unfold detect_bull_flag_col
  split
  · rfl
  · split
    · next hcond =>
      dsimp only
      rw [if_neg]
      rintro ⟨hp, _⟩
      rw [(hf (j - (pole + flagL)) (by omega)).2.2.2,
        (hf (j - flagL - 1) (by omega)).2.2.2, sub_self, zero_div] at hp
      exact absurd hp (by norm_num)
    · rfl

/-- On a flat series the `%-bear_flag` column is identically zero. -/
lemma flat_bear_flag {bars : List Bar} {c : ℚ} (hf : IsFlat bars c)
    (pole flagL j : ℕ) : detect_bear_flag_col bars pole flagL j = 0 := by
  unfold detect_bear_flag_col
  split
  · rfl
  · split
    · next hcond =>
      dsimp only
      rw [if_neg]
      rintro ⟨hp, _⟩
      rw [(hf (j - (pole + flagL)) (by omega)).2.2.2,
        (hf (j - flagL - 1) (by omega)).2.2.2, sub_self, zero_div] at hp
      exact absurd hp (by norm_num)
    · rfl

/-- Rolling minima over in-range windows of a constant column equal the
constant. -/
lemma rollMin_flat {bars : List Bar} {f : Bar → ℚ} {c : ℚ}
    (hfv : ∀ i, i < bars.length → f (nth bars i) = c) {w i : ℕ}
    (hw : 0 < w) (hb : i + 1 ≤ bars.length) (hwi : w ≤ i + 1) :
    rollMin bars f w i = c := by
  unfold rollMin
  rw [windowList_flat_replicate hfv (by omega), listMin_replicate hw]

/-- Rolling maxima over in-range windows of a constant column equal the
constant. -/
lemma rollMax_flat {bars : List Bar} {f : Bar → ℚ} {c : ℚ}
    (hfv : ∀ i, i < bars.length → f (nth bars i) = c) {w i : ℕ}
    (hw : 0 < w) (hb : i + 1 ≤ bars.length) (hwi : w ≤ i + 1) :
    rollMax bars f w i = c := by
  unfold rollMax
  rw [windowList_flat_replicate hfv (by omega), listMax_replicate hw]

/-- On a flat series both order-block flags are identically zero. -/
lemma flat_order_blocks {bars : List Bar} {c : ℚ} (hf : IsFlat bars c)
    (dpct : ℚ) (i : ℕ) :
    order_block_bull bars dpct i = 0 ∧ order_block_bear bars dpct i = 0 := by
  constructor
  · unfold order_block_bull
    rw [if_neg]
    rintro ⟨h1, h2, h3, _⟩
    rw [(hf (i - 3) (by omega)).2.2.2, (hf (i - 3) (by omega)).1] at h3
    exact lt_irrefl c h3
  · unfold order_block_bear
    rw [if_neg]
    rintro ⟨h1, h2, h3, _⟩
    rw [(hf (i - 3) (by omega)).2.2.2, (hf (i - 3) (by omega)).1] at h3
    exact lt_irrefl c h3

/-- On a flat series all four Wyckoff flags are identically zero. -/
lemma flat_wyckoff {bars : List Bar} {c : ℚ} (hf : IsFlat bars c) (i : ℕ) :
    wyckoff_spring bars 50 i = 0 ∧ wyckoff_spring_confirmed bars 50 i = 0
    ∧ wyckoff_upthrust bars 50 i = 0 ∧ wyckoff_upthrust_confirmed bars 50 i = 0 := by
  have hlow : ∀ h1 : i < bars.length, ∀ h2 : 50 ≤ i, priorRangeLow bars 50 i = c := by
    intro h1 h2
    unfold priorRangeLow
    exact rollMin_flat (fun k hk => (hf k hk).2.2.1) (by norm_num) (by omega) (by omega)
  have hhigh : ∀ h1 : i < bars.length, ∀ h2 : 50 ≤ i, priorRangeHigh bars 50 i = c := by
    intro h1 h2
    unfold priorRangeHigh
    exact rollMax_flat (fun k hk => (hf k hk).2.1) (by norm_num) (by omega) (by omega)
  refine ⟨?_, ?_, ?_, ?_⟩
  · unfold wyckoff_spring
    rw [if_neg]
    rintro ⟨h1, h2, h3, _⟩
    rw [hlow h1 h2, (hf i h1).2.2.1] at h3
    exact lt_irrefl c h3
  · unfold wyckoff_spring_confirmed
    rw [if_neg]
    rintro ⟨h1, h2, h3, _⟩
    rw [hlow h1 h2, (hf i h1).2.2.1] at h3
    exact lt_irrefl c h3
  · unfold wyckoff_upthrust
    rw [if_neg]
    rintro ⟨h1, h2, h3, _⟩
    rw [hhigh h1 h2, (hf i h1).2.1] at h3
    exact lt_irrefl c h3
  · unfold wyckoff_upthrust_confirmed
    rw [if_neg]
    rintro ⟨h1, h2, h3, _⟩
    rw [hhigh h1 h2, (hf i h1).2.1] at h3
    exact lt_irrefl c h3

/-- On a flat series both CHoCH flags are identically zero: no trend is ever
classified since the rolling extrema never move. -/
lemma flat_choch {bars : List Bar} {c : ℚ} (hf : IsFlat bars c) (i : ℕ) :
    choch_bull bars i = 0 ∧ choch_bear bars i = 0 := by
  constructor
  · unfold choch_bull
    rw [if_neg]
    rintro ⟨h1, h2, h3, _⟩
    unfold chochDowntrend at h3
    rw [rollMin_flat (fun k hk => (hf k hk).2.2.1) (by norm_num)
        (show i - 1 + 1 ≤ bars.length by omega) (by omega),
      rollMin_flat (fun k hk => (hf k hk).2.2.1) (by norm_num)
        (show i - 1 - 10 + 1 ≤ bars.length by omega) (by omega)] at h3
    exact lt_irrefl c h3.1
  · unfold choch_bear
    rw [if_neg]
    rintro ⟨h1, h2, h3, _⟩
    unfold chochUptrend at h3
    rw [rollMax_flat (fun k hk => (hf k hk).2.1) (by norm_num)
        (show i - 1 + 1 ≤ bars.length by omega) (by omega),
      rollMax_flat (fun k hk => (hf k hk).2.1) (by norm_num)
        (show i - 1 - 10 + 1 ≤ bars.length by omega) (by omega)] at h3
    exact lt_irrefl c h3.1

/-- On a flat series both liquidity-sweep flags are identically zero. -/
lemma flat_sweeps {bars : List Bar} {c : ℚ} (hf : IsFlat bars c) (i : ℕ) :
    liquidity_swept_above bars i = 0 ∧ liquidity_swept_below bars i = 0 := by
  constructor
  · unfold liquidity_swept_above
    rw [if_neg]
    rintro ⟨h1, h2, h3, _⟩
    rw [rollMax_flat (fun k hk => (hf k hk).2.1) (by norm_num)
        (show i - 1 + 1 ≤ bars.length by omega) (by omega), (hf i h1).2.1] at h3
    exact lt_irrefl c h3
  · unfold liquidity_swept_below
    rw [if_neg]
    rintro ⟨h1, h2, h3, _⟩
    rw [rollMin_flat (fun k hk => (hf k hk).2.2.1) (by norm_num)
        (show i - 1 + 1 ≤ bars.length by omega) (by omega), (hf i h1).2.2.1] at h3
    exact lt_irrefl c h3

/-- C9.  Flat-series totality: on any perfectly flat price series (all four
price columns equal to one positive constant), every pattern-matcher
confidence column and every structure-event flag (order blocks, Wyckoff
springs and upthrusts, CHoCH, liquidity sweeps) is zero at every bar; in
this total embedding no division-by-zero can occur (every division is either
epsilon-guarded as in the source or evaluates a zero numerator). -/
theorem c9_flat_series (bars : List Bar) (c : ℚ) (hc : 0 < c)
    (hf : IsFlat bars c) (j : ℕ) :
    detect_double_top_col bars (1/50) j = 0
    ∧ detect_double_bottom_col bars (1/50) j = 0
    ∧ detect_head_shoulders_col bars (1/50) j = 0
    ∧ detect_head_shoulders_inv_col bars (1/50) j = 0
    ∧ detect_rising_wedge_col bars 50 j = 0
    ∧ detect_falling_wedge_col bars 50 j = 0
    ∧ detect_ascending_triangle_col bars 50 j = 0
    ∧ detect_descending_triangle_col bars 50 j = 0
    ∧ detect_symmetrical_triangle_col bars 50 j = 0
    ∧ detect_bull_flag_col bars 20 15 j = 0
    ∧ detect_bear_flag_col bars 20 15 j = 0
    ∧ order_block_bull bars (1/50) j = 0
    ∧ order_block_bear bars (1/50) j = 0
    ∧ wyckoff_spring bars 50 j = 0
    ∧ wyckoff_spring_confirmed bars 50 j = 0
    ∧ wyckoff_upthrust bars 50 j = 0
    ∧ wyckoff_upthrust_confirmed bars 50 j = 0
    ∧ choch_bull bars j = 0
    ∧ choch_bear bars j = 0
    ∧ liquidity_swept_above bars j = 0
    ∧ liquidity_swept_below bars j = 0 := by
  obtain ⟨hob1, hob2⟩ := flat_order_blocks hf (1/50) j
  obtain ⟨hw1, hw2, hw3, hw4⟩ := flat_wyckoff hf j
  obtain ⟨hch1, hch2⟩ := flat_choch hf j
  obtain ⟨hsw1, hsw2⟩ := flat_sweeps hf j
  exact ⟨flat_double_top hf hc (1/50) j, flat_double_bottom hf hc (1/50) j,
    flat_head_shoulders hf hc (1/50) j, flat_head_shoulders_inv hf hc (1/50) j,
    flat_rising_wedge hf 50 j, flat_falling_wedge hf 50 j,
    flat_ascending_triangle hf 50 j, flat_descending_triangle hf 50 j,
    flat_symmetrical_triangle hf 50 j, flat_bull_flag hf 20 15 j,
    flat_bear_flag hf 20 15 j, hob1, hob2, hw1, hw2, hw3, hw4,
    hch1, hch2, hsw1, hsw2⟩

/-- C9, witness: the flat-series theorem applied to 60 flat bars at price
100 and bar 40. -/
theorem c9_witness :
    detect_double_top_col flatW (1/50) 40 = 0
    ∧ detect_double_bottom_col flatW (1/50) 40 = 0
    ∧ detect_head_shoulders_col flatW (1/50) 40 = 0
    ∧ detect_head_shoulders_inv_col flatW (1/50) 40 = 0
    ∧ detect_rising_wedge_col flatW 50 40 = 0
    ∧ detect_falling_wedge_col flatW 50 40 = 0
    ∧ detect_ascending_triangle_col flatW 50 40 = 0
    ∧ detect_descending_triangle_col flatW 50 40 = 0
    ∧ detect_symmetrical_triangle_col flatW 50 40 = 0
    ∧ detect_bull_flag_col flatW 20 15 40 = 0
    ∧ detect_bear_flag_col flatW 20 15 40 = 0
    ∧ order_block_bull flatW (1/50) 40 = 0
    ∧ order_block_bear flatW (1/50) 40 = 0
    ∧ wyckoff_spring flatW 50 40 = 0
    ∧ wyckoff_spring_confirmed flatW 50 40 = 0
    ∧ wyckoff_upthrust flatW 50 40 = 0
    ∧ wyckoff_upthrust_confirmed flatW 50 40 = 0
    ∧ choch_bull flatW 40 = 0
    ∧ choch_bear flatW 40 = 0
    ∧ liquidity_swept_above flatW 40 = 0
    ∧ liquidity_swept_below flatW 40 = 0 :=
  c9_flat_series flatW 100 (by norm_num) (by decide) 40
